import Mathlib

/-!
Verification of the multi-pass Solidity static-analysis engine.

The definitions below are a shallow embedding of the TypeScript source:

* `contract-analyzer-tool.ts` — the primary analyzer (`analyzeContract`,
  `checkReentrancyPattern`, `generateSummary`), the advanced static
  analyzer's taint pass (`performTaintAnalysis`, `getSinkSeverity`);
* the audit-report builder (`generateComprehensiveReport`);
* the anomaly detector (`extractCodeFeatures`, `detectCodeAnomalies`,
  `calculateAnomalyScore`, `generateRiskAssessment`);
* the formal-verification checklist evaluator (`extractFormalProperties`,
  the model-checking / symbolic-execution / abstract-interpretation
  property updates).

JavaScript strings are modelled as `List Char`; `String.prototype.includes`
is substring containment; `split("\n")`, `trim()` and the handful of
regular expressions used by the source (including the stateful `lastIndex`
behaviour of `/g` regexes used with `test()`) are modelled explicitly.
JavaScript floating-point arithmetic on scores and confidences is modelled
with exact rationals (`ℚ`); the numbers involved (tenths, small sums and
one division) are far below the range where IEEE-754 rounding could change
any comparison made by the source.
-/

set_option maxHeartbeats 1000000
set_option maxRecDepth 100000
set_option linter.unusedVariables false

/-- Characters of a JavaScript string. -/
abbrev Str := List Char

/-- JavaScript whitespace class `\s` (the line-relevant members; the
exotic unicode space separators are included for completeness). -/
def isJsSpace (c : Char) : Bool :=
  c == ' ' || c == '\t' || c == '\n' || c == '\r' ||
  c == (Char.ofNat 11) || c == (Char.ofNat 12) ||
  c == (Char.ofNat 0xa0) || c == (Char.ofNat 0x1680) ||
  (0x2000 ≤ c.toNat && c.toNat ≤ 0x200a) ||
  c == (Char.ofNat 0x2028) || c == (Char.ofNat 0x2029) ||
  c == (Char.ofNat 0x202f) || c == (Char.ofNat 0x205f) ||
  c == (Char.ofNat 0x3000) || c == (Char.ofNat 0xfeff)

/-- JavaScript word-character class `\w` = `[A-Za-z0-9_]`. -/
def isWordChar (c : Char) : Bool :=
  ('a' ≤ c && c ≤ 'z') || ('A' ≤ c && c ≤ 'Z') ||
  ('0' ≤ c && c ≤ '9') || c == '_'

/-- Decimal digit. -/
def isDigitChar (c : Char) : Bool := '0' ≤ c && c ≤ '9'

/-- Does `pat` occur as an initial segment of `s`? (Boolean, case-sensitive.) -/
def litHead : Str → Str → Bool
  | [], _ => true
  | _ :: _, [] => false
  | c :: cs, d :: ds => c == d && litHead cs ds

/-- Substring containment: `s.includes(pat)` on JavaScript strings. -/
def listContains (s pat : Str) : Bool :=
  s.tails.any (fun t => litHead pat t)

/-- `String.prototype.includes` lifted to Lean `String`s. -/
def strIncludes (s pat : String) : Bool := listContains s.toList pat.toList

/-- Leading-whitespace removal (the first half of `String.prototype.trim`). -/
def trimStart (s : Str) : Str := s.dropWhile isJsSpace

/-- `String.prototype.trim`. -/
def jsTrim (s : Str) : Str :=
  ((trimStart s).reverse.dropWhile isJsSpace).reverse

/-- `code.split("\n")` — the source's universal line splitter. -/
def splitOnNewline : Str → List Str
  | [] => [[]]
  | c :: rest =>
    if c = '\n' then [] :: splitOnNewline rest
    else
      match splitOnNewline rest with
      | [] => [[c]]
      | l :: ls => (c :: l) :: ls

/-- Inverse of `splitOnNewline`: rejoin lines with `'\n'`. -/
def joinNewline : List Str → Str
  | [] => []
  | [l] => l
  | l :: ls => l ++ '\n' :: joinNewline ls

theorem splitOnNewline_ne_nil (s : Str) : splitOnNewline s ≠ [] := by
  cases s with
  | nil => simp [splitOnNewline]
  | cons c rest =>
    simp only [splitOnNewline]
    split
    · simp
    · split <;> simp

theorem joinNewline_splitOnNewline (s : Str) :
    joinNewline (splitOnNewline s) = s := by
  induction s with
  | nil => rfl
  | cons c rest ih =>
    simp only [splitOnNewline]
    by_cases hc : c = '\n'
    · subst hc
      simp only [if_pos rfl]
      have hne := splitOnNewline_ne_nil rest
      cases h : splitOnNewline rest with
      | nil => exact absurd h hne
      | cons l ls =>
        rw [h] at ih
        cases ls with
        | nil => simpa [joinNewline] using ih
        | cons l2 ls2 => simpa [joinNewline] using ih
    · simp only [if_neg hc]
      cases h : splitOnNewline rest with
      | nil => exact absurd h (splitOnNewline_ne_nil rest)
      | cons l ls =>
        rw [h] at ih
        cases ls with
        | nil => simpa [joinNewline] using ih
        | cons l2 ls2 => simpa [joinNewline] using ih

theorem litHead_append (pat t b : Str) (h : litHead pat t = true) :
    litHead pat (t ++ b) = true := by
  induction pat generalizing t with
  | nil => rfl
  | cons c cs ih =>
    cases t with
    | nil => simp [litHead] at h
    | cons d ds =>
      simp only [litHead, Bool.and_eq_true] at h ⊢
      exact ⟨h.1, ih ds h.2⟩

theorem litHead_nil_iff (pat : Str) : litHead pat [] = true ↔ pat = [] := by
  cases pat <;> simp [litHead]

theorem listContains_nil_pat (s : Str) : listContains s [] = true := by
  cases s <;> simp [listContains, List.tails, litHead]

theorem listContains_append_left (a b pat : Str)
    (h : listContains a pat = true) : listContains (a ++ b) pat = true := by
  induction a with
  | nil =>
    simp only [listContains, List.tails, List.any_cons, List.any_nil,
      Bool.or_false] at h
    have hpat : pat = [] := (litHead_nil_iff pat).mp h
    subst hpat
    exact listContains_nil_pat ([] ++ b)
  | cons c cs ih =>
    simp only [listContains, List.tails, List.any_cons, Bool.or_eq_true] at h
    rcases h with h | h
    · simp only [List.cons_append, listContains, List.tails, List.any_cons,
        Bool.or_eq_true]
      left
      exact litHead_append pat (c :: cs) b h
    · have := ih h
      simp only [List.cons_append, listContains, List.tails, List.any_cons,
        Bool.or_eq_true]
      right
      simpa [listContains] using this

theorem listContains_append_right (a b pat : Str)
    (h : listContains b pat = true) : listContains (a ++ b) pat = true := by
  induction a with
  | nil => simpa
  | cons c cs ih =>
    simp only [List.cons_append, listContains, List.tails, List.any_cons,
      Bool.or_eq_true]
    right
    simpa [listContains] using ih

theorem listContains_cons (c : Char) (s pat : Str)
    (h : listContains s pat = true) : listContains (c :: s) pat = true :=
  listContains_append_right [c] s pat h

theorem listContains_singleton (s : Str) (c : Char) :
    listContains s [c] = true ↔ c ∈ s := by
  induction s with
  | nil => simp [listContains, List.tails, litHead]
  | cons d ds ih =>
    simp only [listContains, List.tails, List.any_cons, Bool.or_eq_true,
      List.mem_cons]
    constructor
    · rintro (h | h)
      · left
        simp only [litHead, Bool.and_eq_true, beq_iff_eq] at h
        exact h.1
      · right
        exact ih.mp (by simpa [listContains] using h)
    · rintro (h | h)
      · left
        simp [litHead, h]
      · right
        simpa [listContains] using ih.mpr h

theorem listContains_dropWhile (p : Char → Bool) (s pat : Str)
    (h : listContains (s.dropWhile p) pat = true) :
    listContains s pat = true := by
  induction s with
  | nil => simpa [List.dropWhile] using h
  | cons c cs ih =>
    by_cases hc : p c
    · simp only [List.dropWhile, hc] at h
      exact listContains_cons c cs pat (ih h)
    · simpa [List.dropWhile, hc] using h

theorem listContains_trimStart (s pat : Str)
    (h : listContains (trimStart s) pat = true) : listContains s pat = true :=
  listContains_dropWhile isJsSpace s pat h

theorem jsTrim_append_eq_trimStart (s : Str) :
    jsTrim s ++ ((trimStart s).reverse.takeWhile isJsSpace).reverse
      = trimStart s := by
  unfold jsTrim
  rw [← List.reverse_append, List.takeWhile_append_dropWhile,
    List.reverse_reverse]

theorem listContains_jsTrim (s pat : Str)
    (h : listContains (jsTrim s) pat = true) : listContains s pat = true := by
  apply listContains_trimStart
  rw [← jsTrim_append_eq_trimStart s]
  exact listContains_append_left _ _ _ h

theorem mem_dropWhile_of_not (p : Char → Bool) (s : Str) (c : Char)
    (hc : p c = false) (h : c ∈ s) : c ∈ s.dropWhile p := by
  induction s with
  | nil => simp at h
  | cons d ds ih =>
    by_cases hd : p d
    · simp only [List.dropWhile, hd]
      rcases List.mem_cons.mp h with h | h
      · subst h; rw [hc] at hd; cases hd
      · exact ih h
    · simpa [List.dropWhile, hd] using h

theorem mem_jsTrim_of_not_space (s : Str) (c : Char)
    (hc : isJsSpace c = false) (h : c ∈ s) : c ∈ jsTrim s := by
  unfold jsTrim
  rw [List.mem_reverse]
  apply mem_dropWhile_of_not _ _ _ hc
  rw [List.mem_reverse]
  exact mem_dropWhile_of_not _ _ _ hc h

theorem listContains_of_mem_join (L : List Str) (l : Str) (pat : Str)
    (hl : l ∈ L) (h : listContains l pat = true) :
    listContains (joinNewline L) pat = true := by
  induction L with
  | nil => simp at hl
  | cons x xs ih =>
    rcases List.mem_cons.mp hl with rfl | hmem
    · cases xs with
      | nil => simpa [joinNewline] using h
      | cons y ys =>
        show listContains (l ++ '\n' :: joinNewline (y :: ys)) pat = true
        exact listContains_append_left _ _ _ h
    · cases xs with
      | nil => simp at hmem
      | cons y ys =>
        show listContains (x ++ '\n' :: joinNewline (y :: ys)) pat = true
        apply listContains_append_right
        exact listContains_cons _ _ _ (ih hmem)

/-- A pattern occurring in some source line occurs in the whole source. -/
theorem listContains_of_line (code : Str) (l : Str) (pat : Str)
    (hl : l ∈ splitOnNewline code) (h : listContains l pat = true) :
    listContains code pat = true := by
  rw [← joinNewline_splitOnNewline code]
  exact listContains_of_mem_join _ _ _ hl h

theorem mem_join_cases (L : List Str) (c : Char) (h : c ∈ joinNewline L) :
    c = '\n' ∨ ∃ l ∈ L, c ∈ l := by
  induction L with
  | nil => simp [joinNewline] at h
  | cons x xs ih =>
    cases xs with
    | nil =>
      right
      exact ⟨x, by simp, by simpa [joinNewline] using h⟩
    | cons y ys =>
      have h' : c ∈ x ++ '\n' :: joinNewline (y :: ys) := h
      rcases List.mem_append.mp h' with h1 | h1
      · right; exact ⟨x, by simp, h1⟩
      · rcases List.mem_cons.mp h1 with rfl | h2
        · left; rfl
        · rcases ih h2 with h3 | ⟨l, hl, hcl⟩
          · left; exact h3
          · right; exact ⟨l, List.mem_cons_of_mem _ hl, hcl⟩

/-- A character of the source other than the newline separator lies on
some line of the split. -/
theorem mem_line_of_mem_code (code : Str) (c : Char) (hc : c ≠ '\n')
    (h : c ∈ code) : ∃ l ∈ splitOnNewline code, c ∈ l := by
  rw [← joinNewline_splitOnNewline code] at h
  rcases mem_join_cases _ _ h with h1 | h1
  · exact absurd h1 hc
  · exact h1

/-! ### Regular-expression matchers

Each regex of the source is modelled by an *at-position* matcher
`Str → Option Nat` returning the length of the (deterministic) match
starting at the head of its argument, or `none`.  All the source's
patterns are backtracking-free: every quantified class (`\s`, `\w`,
`[0-9]`) is disjoint from the token that follows it, so greedy maximal
munch coincides with the regex semantics. -/

/-- Literal match at the current position. -/
def litAt (pat : Str) (s : Str) : Option Nat :=
  if litHead pat s then some pat.length else none

/-- Case-insensitive initial-segment test (for `/…/i` regexes). -/
def icLitHead : Str → Str → Bool
  | [], _ => true
  | _ :: _, [] => false
  | c :: cs, d :: ds => c.toLower == d.toLower && icLitHead cs ds

/-- Maximal run of JavaScript whitespace: length consumed and remainder. -/
def spacesRun : Str → Nat × Str
  | [] => (0, [])
  | c :: rest =>
    if isJsSpace c then
      let p := spacesRun rest
      (p.1 + 1, p.2)
    else (0, c :: rest)

/-- Maximal run of word characters: the word and the remainder. -/
def wordRun : Str → Str × Str
  | [] => ([], [])
  | c :: rest =>
    if isWordChar c then
      let p := wordRun rest
      (c :: p.1, p.2)
    else ([], c :: rest)

/-- Maximal run of decimal digits: the digits and the remainder. -/
def digitsRun : Str → Str × Str
  | [] => ([], [])
  | c :: rest =>
    if isDigitChar c then
      let p := digitsRun rest
      (c :: p.1, p.2)
    else ([], c :: rest)

/-- Numeric value of a digit string. -/
def digitsVal (ds : Str) : Nat :=
  ds.foldl (fun a c => a * 10 + (c.toNat - '0'.toNat)) 0

/-- Matcher for `\.call\s*\(`. -/
def callAt (s : Str) : Option Nat :=
  if litHead (".call".toList) s then
    let r1 := s.drop 5
    let p := spacesRun r1
    match p.2 with
    | '(' :: _ => some (5 + p.1 + 1)
    | _ => none
  else none

/-- Matcher for `tx\.origin`. -/
def txOriginAt (s : Str) : Option Nat := litAt ("tx.origin".toList) s

/-- Matcher for `selfdestruct\s*\(`. -/
def selfdestructAt (s : Str) : Option Nat :=
  if litHead ("selfdestruct".toList) s then
    let r1 := s.drop 12
    let p := spacesRun r1
    match p.2 with
    | '(' :: _ => some (12 + p.1 + 1)
    | _ => none
  else none

/-- Matcher for `block\.timestamp|now` (left alternative first, as in
JavaScript's leftmost-first alternation). -/
def timestampNowAt (s : Str) : Option Nat :=
  match litAt ("block.timestamp".toList) s with
  | some n => some n
  | none => litAt ("now".toList) s

/-- Matcher for `pragma\s+solidity\s+\^?[0-4]\.`. -/
def outdatedPragmaAt (s : Str) : Option Nat :=
  if litHead ("pragma".toList) s then
    let p1 := spacesRun (s.drop 6)
    if p1.1 = 0 then none
    else if litHead ("solidity".toList) p1.2 then
      let p2 := spacesRun (p1.2.drop 8)
      if p2.1 = 0 then none
      else
        let caretLen : Nat := match p2.2 with
          | '^' :: _ => 1
          | _ => 0
        match p2.2.drop caretLen with
        | c :: '.' :: _ =>
          if '0' ≤ c && c ≤ '4' then some (6 + p1.1 + 8 + p2.1 + caretLen + 2)
          else none
        | _ => none
    else none
  else none

/-- Matcher for `pragma\s+solidity\s+\^?([0-9]+\.[0-9]+)`, returning the
captured version as (integer digits, fractional digits). -/
def versionAt (s : Str) : Option (Str × Str) :=
  if litHead ("pragma".toList) s then
    let p1 := spacesRun (s.drop 6)
    if p1.1 = 0 then none
    else if litHead ("solidity".toList) p1.2 then
      let p2 := spacesRun (p1.2.drop 8)
      if p2.1 = 0 then none
      else
        let afterCaret : Str := match p2.2 with
          | '^' :: r => r
          | r => r
        let d1 := digitsRun afterCaret
        if d1.1 = [] then none
        else
          match d1.2 with
          | '.' :: r2 =>
            let d2 := digitsRun r2
            if d2.1 = [] then none else some (d1.1, d2.1)
          | _ => none
    else none
  else none

/-- Matcher for `/pragma\s+solidity/i`. -/
def pragmaSolidityAt (s : Str) : Option Nat :=
  if icLitHead ("pragma".toList) s then
    let p1 := spacesRun (s.drop 6)
    if p1.1 = 0 then none
    else if icLitHead ("solidity".toList) p1.2 then some (6 + p1.1 + 8)
    else none
  else none

/-- Matcher for `/contract\s+\w+/i`; also used (case-sensitively it is
identical on the inputs of interest, but we keep both) as the shape of
`contract\s+(\w+)`. -/
def contractDeclAt (s : Str) : Option Nat :=
  if icLitHead ("contract".toList) s then
    let p1 := spacesRun (s.drop 8)
    if p1.1 = 0 then none
    else
      let w := wordRun p1.2
      if w.1 = [] then none else some (8 + p1.1 + w.1.length)
  else none

/-- Matcher for `contract\s+(\w+)` (case-sensitive), returning the captured
contract name. -/
def contractNameAt (s : Str) : Option Str :=
  if litHead ("contract".toList) s then
    let p1 := spacesRun (s.drop 8)
    if p1.1 = 0 then none
    else
      let w := wordRun p1.2
      if w.1 = [] then none else some w.1
  else none

/-- Scan for the leftmost position at or beyond `pos` where the matcher
succeeds; returns (match start, match end). -/
def scanFind (m : Str → Option Nat) : Str → Nat → Option (Nat × Nat)
  | [], pos =>
    match m [] with
    | some k => some (pos, pos + k)
    | none => none
  | c :: rest, pos =>
    match m (c :: rest) with
    | some k => some (pos, pos + k)
    | none => scanFind m rest (pos + 1)

/-- `regex.test(line)` for a `/g` regex with state `lastIdx`: JavaScript
searches from `lastIndex`, and on success sets `lastIndex` to the match
end (returned here); on failure it resets `lastIndex` to 0 (modelled by
`none` at the call site). -/
def jsTestG (m : Str → Option Nat) (line : Str) (lastIdx : Nat) : Option Nat :=
  (scanFind m (line.drop lastIdx) lastIdx).map (fun pr => pr.2)

/-- Stateless `regex.test(s)` (regexes without the `/g` flag, or fresh ones). -/
def jsTest (m : Str → Option Nat) (s : Str) : Bool :=
  (scanFind m s 0).isSome

/-- First match anywhere in the string, returning the matcher's payload
(used for `String.prototype.match` with a capture). -/
def scanFirst {α : Type} (m : Str → Option α) : Str → Option α
  | [] => m []
  | c :: rest =>
    match m (c :: rest) with
    | some v => some v
    | none => scanFirst m rest

theorem scanFind_isSome (m : Str → Option Nat) (s : Str) (p : Nat) :
    (scanFind m s p).isSome = s.tails.any (fun t => (m t).isSome) := by
  induction s generalizing p with
  | nil =>
    simp only [scanFind, List.tails, List.any_cons, List.any_nil,
      Bool.or_false]
    cases m [] <;> simp
  | cons c rest ih =>
    have htails : (c :: rest).tails = (c :: rest) :: rest.tails := by
      simp [List.tails]
    rw [htails]
    simp only [scanFind, List.any_cons]
    cases m (c :: rest) with
    | some k => simp
    | none => simp [ih]

theorem jsTest_of_jsTestG (m : Str → Option Nat) (l : Str) (k e : Nat)
    (h : jsTestG m l k = some e) : jsTest m l = true := by
  unfold jsTestG at h
  unfold jsTest
  rw [scanFind_isSome]
  have hsome : (scanFind m (l.drop k) k).isSome = true := by
    cases hsf : scanFind m (l.drop k) k with
    | none => rw [hsf] at h; simp at h
    | some pr => simp
  rw [scanFind_isSome] at hsome
  rw [List.any_eq_true] at hsome ⊢
  rcases hsome with ⟨t, ht, hmt⟩
  refine ⟨t, ?_, hmt⟩
  rw [List.mem_tails] at ht ⊢
  exact ht.trans (List.drop_suffix k l)

theorem jsTestG_eq_none (m : Str → Option Nat) (l : Str) (k : Nat)
    (h : jsTest m l = false) : jsTestG m l k = none := by
  cases he : jsTestG m l k with
  | none => rfl
  | some e => rw [jsTest_of_jsTestG m l k e he] at h; cases h

theorem jsTestG_zero_isSome (m : Str → Option Nat) (l : Str)
    (h : jsTest m l = true) : (jsTestG m l 0).isSome = true := by
  unfold jsTest at h
  unfold jsTestG
  rw [List.drop_zero]
  cases hsf : scanFind m l 0 with
  | none => rw [hsf] at h; simp at h
  | some pr => simp

theorem litAt_isSome (pat t : Str) : (litAt pat t).isSome = litHead pat t := by
  unfold litAt
  split <;> simp_all

theorem jsTest_litAt_eq_listContains (pat l : Str) :
    jsTest (litAt pat) l = listContains l pat := by
  unfold jsTest listContains
  rw [scanFind_isSome]
  simp only [litAt_isSome]

/-! ### Primary analyzer (`contract-analyzer-tool.ts`) -/

/-- Severity levels shared by every pass. -/
inductive Severity where
  | Critical
  | High
  | Medium
  | Low
  deriving DecidableEq, Repr

/-- A `SecurityIssue` of the primary analyzer. -/
structure SecurityIssue where
  type : String
  severity : Severity
  line : Option Nat := none
  description : String
  recommendation : String
  impact : String
  deriving DecidableEq, Repr

/-- The primary analyzer's result record.  The source's HTML-sanitisation
regexes are not modelled (on inputs free of the character `<` the
sanitiser is exactly `trim()`, which is modelled). -/
structure AnalysisResult where
  contractName : String
  totalLines : Nat
  securityScore : Int
  issues : List SecurityIssue
  gasOptimizations : List String
  summary : String
  deriving DecidableEq, Repr

/-- Issue pushed by the `\.call\s*\(` rule of `securityChecks`. -/
def callIssue (n : Nat) : SecurityIssue :=
  { type := "Low-level call"
    severity := Severity.High
    line := some n
    description := "Usage of low-level call() function detected"
    recommendation := "Use specific function calls or implement proper error handling and reentrancy protection"
    impact := "Potential for reentrancy attacks and unexpected behavior" }

/-- Issue pushed by the `tx\.origin` rule of `securityChecks`. -/
def txOriginIssue (n : Nat) : SecurityIssue :=
  { type := "tx.origin usage"
    severity := Severity.Critical
    line := some n
    description := "Usage of tx.origin for authorization detected"
    recommendation := "Use msg.sender instead of tx.origin for access control"
    impact := "Vulnerable to phishing attacks where malicious contracts can impersonate users" }

/-- Issue pushed by the `selfdestruct\s*\(` rule of `securityChecks`. -/
def selfdestructIssue (n : Nat) : SecurityIssue :=
  { type := "Self-destruct"
    severity := Severity.High
    line := some n
    description := "Self-destruct functionality detected"
    recommendation := "Ensure proper access controls and consider the implications of contract destruction"
    impact := "Contract can be permanently destroyed, potentially locking funds" }

/-- Issue pushed by the `block\.timestamp|now` rule of `securityChecks`. -/
def timestampIssue (n : Nat) : SecurityIssue :=
  { type := "Timestamp dependency"
    severity := Severity.Medium
    line := some n
    description := "Dependency on block timestamp detected"
    recommendation := "Avoid using timestamps for critical logic or implement tolerance ranges"
    impact := "Miners can manipulate timestamps within reasonable bounds" }

/-- Issue pushed by the `pragma\s+solidity\s+\^?[0-4]\.` rule. -/
def outdatedIssue (n : Nat) : SecurityIssue :=
  { type := "Outdated Solidity version"
    severity := Severity.Medium
    line := some n
    description := "Outdated Solidity version detected"
    recommendation := "Update to Solidity 0.8.x or later for built-in overflow protection"
    impact := "Missing security features and potential vulnerabilities" }

/-- Issue pushed by the whole-unit reentrancy heuristic. -/
def reentrancyIssue : SecurityIssue :=
  { type := "Reentrancy vulnerability"
    severity := Severity.Critical
    description := "Potential reentrancy vulnerability detected - state changes after external calls"
    recommendation := "Implement checks-effects-interactions pattern or use ReentrancyGuard"
    impact := "Attackers can drain contract funds through recursive calls" }

/-- Issue pushed by the pre-0.8.0 unguarded-arithmetic heuristic. -/
def overflowIssue : SecurityIssue :=
  { type := "Integer overflow/underflow"
    severity := Severity.High
    description := "Arithmetic operations without overflow protection in pre-0.8.0 Solidity"
    recommendation := "Use SafeMath library or upgrade to Solidity 0.8.x"
    impact := "Arithmetic operations can overflow/underflow leading to unexpected behavior" }

/-- `lastIndex` state of the five `/g` regex objects in `securityChecks`,
which persist across the line loop of one `analyzeContract` call. -/
structure ScanSt where
  callI : Nat
  txI : Nat
  sdI : Nat
  tsI : Nat
  pgI : Nat
  deriving DecidableEq, Repr

/-- One iteration of the inner `for (const check of securityChecks)` loop
with its `break` on the first matching rule: checks tried before the
match have failed (their `lastIndex` resets to 0), the matching check's
`lastIndex` advances to the match end, and the checks after the `break`
keep their state untouched. -/
def lineScanStep (l : Str) (st : ScanSt) :
    Option (Nat → SecurityIssue) × ScanSt :=
  match jsTestG callAt l st.callI with
  | some e => (some callIssue, { st with callI := e })
  | none =>
    match jsTestG txOriginAt l st.txI with
    | some e => (some txOriginIssue, { st with callI := 0, txI := e })
    | none =>
      match jsTestG selfdestructAt l st.sdI with
      | some e =>
        (some selfdestructIssue, { st with callI := 0, txI := 0, sdI := e })
      | none =>
        match jsTestG timestampNowAt l st.tsI with
        | some e =>
          (some timestampIssue,
            { callI := 0, txI := 0, sdI := 0, tsI := e, pgI := st.pgI })
        | none =>
          match jsTestG outdatedPragmaAt l st.pgI with
          | some e =>
            (some outdatedIssue, { callI := 0, txI := 0, sdI := 0, tsI := 0, pgI := e })
          | none => (none, { callI := 0, txI := 0, sdI := 0, tsI := 0, pgI := 0 })

/-- The pattern-based line scan (`for (let i = 0; i < linesToCheck; i++)`),
one issue at most per line, 1-based line numbers. -/
def scanChecks : List Str → Nat → ScanSt → List SecurityIssue
  | [], _, _ => []
  | l :: rest, i, st =>
    match lineScanStep l st with
    | (some mk, st') => mk (i + 1) :: scanChecks rest (i + 1) st'
    | (none, st') => scanChecks rest (i + 1) st'

/-- Loop body of `checkReentrancyPattern`: once an external-call line has
been seen, the first later (or same) line containing `=` but neither
`require` nor `assert` sets the flag and breaks. -/
def reentrancyAux : List Str → Bool → Bool
  | [], _ => false
  | l :: rest, hasExt =>
    let hasExt' := hasExt ||
      (listContains l (".call(".toList) || listContains l (".send(".toList) ||
        listContains l (".transfer(".toList))
    if hasExt' && listContains l ("=".toList) &&
        !listContains l ("require".toList) && !listContains l ("assert".toList)
    then true
    else reentrancyAux rest hasExt'

/-- `checkReentrancyPattern` from the source. -/
def checkReentrancyPattern (code : Str) : Bool :=
  reentrancyAux (splitOnNewline code) false

/-- `/\.call\(|\.send\(|\.transfer\(/.test(sanitizedCode)`. -/
def hasExternalCalls (code : Str) : Bool :=
  listContains code (".call(".toList) || listContains code (".send(".toList) ||
    listContains code (".transfer(".toList)

/-- `parseFloat(intDigits + "." + fracDigits) < 0.8`, computed exactly on
rationals; IEEE-754 rounding of `parseFloat` cannot flip this comparison
for version strings of realistic precision. -/
def versionLtZeroPointEight (v : Str × Str) : Bool :=
  (digitsVal v.1 * 10 ^ v.2.length + digitsVal v.2) * 10 < 8 * 10 ^ v.2.length

/-- `/[\+\-\*\/]/.test(sanitizedCode)`. -/
def hasArithmetic (code : Str) : Bool :=
  listContains code ("+".toList) || listContains code ("-".toList) ||
    listContains code ("*".toList) || listContains code ("/".toList)

/-- The issues pushed before the line loop: the reentrancy heuristic and
the pre-0.8.0 unguarded-arithmetic heuristic, in source order. -/
def preScanIssues (code : Str) : List SecurityIssue :=
  (if hasExternalCalls code && checkReentrancyPattern code
    then [reentrancyIssue] else []) ++
  (match scanFirst versionAt code with
    | some v =>
      if versionLtZeroPointEight v && hasArithmetic code &&
          !listContains code ("SafeMath".toList)
      then [overflowIssue] else []
    | none => [])

/-- Every issue discovered by one `analyzeContract` run over the sanitised
code, in push order, *before* the final `issues.slice(0, 20)`. -/
def discoveredIssues (code : Str) : List SecurityIssue :=
  preScanIssues code ++
    scanChecks ((splitOnNewline code).take 100) 0 ⟨0, 0, 0, 0, 0⟩

/-- The quick gas-optimisation suggestions. -/
def gasOptimizationsOf (code : Str) : List String :=
  (if listContains code ("public".toList) && listContains code ("view".toList)
    then ["Consider using 'external' instead of 'public' for functions only called externally"]
    else []) ++
  (if listContains code ("uint256".toList)
    then ["Consider using smaller uint types when possible to pack structs efficiently"]
    else [])

/-- `securityScore` formula shared by the analyzer (lines 241–244) and,
per the spec's §4.6, by the report builder. -/
def scoreFromCounts (critical high medium low : Nat) : Int :=
  max 0 (100 - (25 * (critical : Int) + 15 * high + 8 * medium + 3 * low))

/-- `generateSummary` from the source. -/
def generateSummary (contractName : String) (score : Int)
    (totalIssues critical high : Nat) : String :=
  let riskLevel : String :=
    if critical > 0 then "Critical"
    else if high > 0 then "High"
    else if totalIssues > 3 then "Medium"
    else "Low"
  "Contract \"" ++ contractName ++ "\" analysis complete. Security Score: " ++
    toString score ++ "/100 (" ++ riskLevel ++ " Risk). Found " ++
    toString totalIssues ++ " issues: " ++ toString critical ++
    " Critical, " ++ toString high ++ " High severity. " ++
    (if score ≥ 80 then "Contract shows good security practices."
     else if score ≥ 60 then "Contract needs security improvements."
     else "Contract requires immediate security attention.")

/-- Number of issues of a given severity
(`issues.filter(i => i.severity === …).length`). -/
def countSeverity (issues : List SecurityIssue) (sev : Severity) : Nat :=
  issues.countP (fun i => decide (i.severity = sev))

/-- `/pragma\s+solidity/i.test(sanitizedCode)`. -/
def hasPragma (code : Str) : Bool := jsTest pragmaSolidityAt code

/-- `/contract\s+\w+/i.test(sanitizedCode)`. -/
def hasContractMarker (code : Str) : Bool := jsTest contractDeclAt code

/-- `finalContractName`: the caller-supplied name if non-empty (JavaScript
`||` treats the empty string as absent), else the first
`contract\s+(\w+)` capture, else `"UnknownContract"`. -/
def finalNameOf (sanitized : Str) (contractName : Option String) : String :=
  let fallbackName : String :=
    match scanFirst contractNameAt sanitized with
    | some w => String.mk w
    | none => "UnknownContract"
  match contractName with
  | some n => if n.length = 0 then fallbackName else n
  | none => fallbackName

/-- The successful result record assembled by `analyzeContract` over the
sanitised code. -/
def analyzeOkResult (sanitized : Str) (finalName : String) : AnalysisResult :=
  let issues := discoveredIssues sanitized
  let critical := countSeverity issues Severity.Critical
  let high := countSeverity issues Severity.High
  let medium := countSeverity issues Severity.Medium
  let low := countSeverity issues Severity.Low
  let score := scoreFromCounts critical high medium low
  { contractName := finalName
    totalLines := (splitOnNewline sanitized).length
    securityScore := score
    issues := issues.take 20
    gasOptimizations := (gasOptimizationsOf sanitized).take 5
    summary := generateSummary finalName score issues.length critical high }

/-- `analyzeContract` from `contract-analyzer-tool.ts`.  Throwing is
modelled with `Except.error`; the HTML-stripping part of the sanitiser is
the identity on inputs without `<` and is not modelled (its `trim()` is).
The (pure) contract-name extraction happens before validation in the
source; hoisting it into `analyzeOkResult`'s argument is observationally
identical. -/
def analyzeContract (contractCode : Str) (contractName : Option String) :
    Except String AnalysisResult :=
  if (jsTrim contractCode).length = 0 then
    Except.error ("Contract code cannot be empty")
  else if !hasPragma (jsTrim contractCode) &&
      !hasContractMarker (jsTrim contractCode) then
    Except.error ("Input does not appear to be valid Solidity code")
  else
    Except.ok
      (analyzeOkResult (jsTrim contractCode)
        (finalNameOf (jsTrim contractCode) contractName))

/-! ### Taint analysis (`performTaintAnalysis` / `getSinkSeverity`) -/

/-- A vulnerable source→sink path. -/
structure TaintPath where
  source : String
  sink : String
  path : List String
  severity : Severity
  deriving DecidableEq, Repr

/-- The fixed taint-source pattern list of the source file. -/
def taintSources : List String :=
  ["msg.sender", "msg.value", "msg.data", "tx.origin", "block.timestamp",
    "block.number", "block.coinbase"]

/-- The fixed taint-sink pattern list of the source file. -/
def taintSinks : List String :=
  [".call(", ".delegatecall(", ".send(", ".transfer(", "selfdestruct(",
    "suicide("]

/-- `getSinkSeverity` from the source. -/
def getSinkSeverity (sink : String) : Severity :=
  if strIncludes sink "delegatecall" || strIncludes sink "selfdestruct" then
    Severity.Critical
  else if strIncludes sink ".call(" then Severity.High
  else Severity.Medium

/-- `lines.findIndex(line => line.includes(pat))` (`none` for `-1`). -/
def findIdxContaining (lines : List Str) (pat : String) : Option Nat :=
  lines.findIdx? (fun l => listContains l pat.toList)

/-- The body of the nested `sources.forEach(sinks.forEach(…))` loop for one
(source, sink) pair. -/
def taintPair (lines : List Str) (source sink : String) : Option TaintPath :=
  match findIdxContaining lines source, findIdxContaining lines sink with
  | some i, some j =>
    if i < j then
      some { source := source, sink := sink
             path := ["Line " ++ toString (i + 1), "Line " ++ toString (j + 1)]
             severity := getSinkSeverity sink }
    else none
  | _, _ => none

/-- Result of `performTaintAnalysis`. -/
structure TaintAnalysis where
  sources : List String
  sinks : List String
  vulnerablePaths : List TaintPath
  deriving DecidableEq, Repr

/-- `performTaintAnalysis` from the source (its `cfg` and `dataFlow`
parameters are never read by the body and are omitted). -/
def performTaintAnalysis (lines : List Str) : TaintAnalysis :=
  { sources := taintSources.filter
      (fun s => lines.any (fun l => listContains l s.toList))
    sinks := taintSinks.filter
      (fun k => lines.any (fun l => listContains l k.toList))
    vulnerablePaths := taintSources.flatMap
      (fun s => taintSinks.filterMap (fun k => taintPair lines s k)) }

/-! ### Audit-report builder (`generateComprehensiveReport`)

The random report-linkage tags (`reportId`, the `SEC-…` suffix) and the
wall-clock `timestamp` are excluded per the spec's §8 (random IDs are
excluded from structural equality); `reportMarkdown` is a pure render of
the report fields and is not modelled. -/

/-- One entry of `vulnerabilityResults.vulnerabilities`. -/
structure Vulnerability where
  id : String
  severity : Severity
  name : String
  description : String
  remediation : String
  location : String
  deriving DecidableEq, Repr

/-- One entry of the report's `detailedFindings`. -/
structure DetailedFinding where
  id : String
  severity : Severity
  title : String
  description : String
  impact : String
  recommendation : String
  location : Option String
  deriving DecidableEq, Repr

/-- The report's per-severity `findings` counters. -/
structure ReportFindings where
  critical : Nat
  high : Nat
  medium : Nat
  low : Nat
  deriving DecidableEq, Repr

/-- `analysisResults` input of the report builder. -/
structure AnalysisResultsIn where
  securityScore : Int
  issues : List SecurityIssue
  gasOptimizations : List String
  deriving DecidableEq, Repr

/-- `vulnerabilityResults` input of the report builder. -/
structure VulnerabilityResultsIn where
  vulnerabilities : List Vulnerability
  overallRisk : String
  recommendations : List String
  deriving DecidableEq, Repr

/-- One entry of `gasResults.optimizations`. -/
structure GasOptimizationRec where
  type : String
  description : String
  estimatedSavings : String
  recommendation : String
  deriving DecidableEq, Repr

/-- `gasResults` input of the report builder. -/
structure GasResultsIn where
  optimizations : List GasOptimizationRec
  estimatedGasSavings : String
  deriving DecidableEq, Repr

/-- The generated audit report. -/
structure AuditReport where
  contractName : String
  executiveSummary : String
  securityScore : Int
  riskLevel : String
  findings : ReportFindings
  detailedFindings : List DetailedFinding
  gasOptimizations : List String
  recommendations : List String
  conclusion : String
  deriving DecidableEq, Repr

/-- Mapping of an analyzer issue into a detailed finding (the random
`SEC-…` linkage suffix is excluded per §8). -/
def issueToFinding (issue : SecurityIssue) : DetailedFinding :=
  { id := "SEC-"
    severity := issue.severity
    title := issue.type
    description := issue.description
    impact := issue.impact
    recommendation := issue.recommendation
    location := issue.line.map (fun n => "Line " ++ toString n) }

/-- Mapping of a vulnerability record into a detailed finding. -/
def vulnToFinding (v : Vulnerability) : DetailedFinding :=
  { id := v.id
    severity := v.severity
    title := v.name
    description := v.description
    impact := "Potential security vulnerability: " ++ v.name
    recommendation := v.remediation
    location := some v.location }

/-- Per-severity counters over the combined findings. -/
def reportFindingCounts (allFindings : List DetailedFinding) : ReportFindings :=
  { critical := allFindings.countP (fun f => decide (f.severity = Severity.Critical))
    high := allFindings.countP (fun f => decide (f.severity = Severity.High))
    medium := allFindings.countP (fun f => decide (f.severity = Severity.Medium))
    low := allFindings.countP (fun f => decide (f.severity = Severity.Low)) }

/-- The report builder's risk level (part_006 lines 126–129). -/
def reportRiskLevel (findings : ReportFindings) : String :=
  if findings.critical > 0 then "Critical"
  else if findings.high > 0 then "High"
  else if findings.medium > 2 then "Medium"
  else "Low"

/-- `generateExecutiveSummary` from the source. -/
def generateExecutiveSummary (contractName : String) (securityScore : Int)
    (findings : ReportFindings) (riskLevel : String) : String :=
  let totalIssues :=
    findings.critical + findings.high + findings.medium + findings.low
  "This security audit of the \"" ++ contractName ++
    "\" smart contract reveals a security score of " ++ toString securityScore ++
    "/100 with an overall risk level of " ++ riskLevel ++ ". \n\n" ++
    "The analysis identified " ++ toString totalIssues ++ " total findings: " ++
    toString findings.critical ++ " critical, " ++ toString findings.high ++
    " high, " ++ toString findings.medium ++ " medium, and " ++
    toString findings.low ++ " low severity issues. \n\n" ++
    (if securityScore ≥ 80 then
      "The contract demonstrates good security practices with minor improvements needed."
     else if securityScore ≥ 60 then
      "The contract requires moderate security improvements before deployment."
     else
      "The contract needs significant security enhancements and should not be deployed in its current state.") ++
    "\n\nKey areas of concern include " ++
    (if findings.critical > 0 then "critical security vulnerabilities"
     else if findings.high > 0 then "high-severity security issues"
     else "moderate security improvements") ++
    " that require immediate attention."

/-- `generateConclusion` from the source. -/
def generateConclusion (securityScore : Int) (riskLevel : String)
    (findings : ReportFindings) : String :=
  if securityScore ≥ 85 && riskLevel == "Low" then
    "The smart contract demonstrates excellent security practices and is ready for deployment with minor optimizations."
  else if securityScore ≥ 70 && (riskLevel == "Low" || riskLevel == "Medium") then
    "The smart contract shows good security fundamentals but requires addressing identified issues before deployment."
  else if findings.critical > 0 then
    "The smart contract contains critical security vulnerabilities that must be resolved before any deployment consideration."
  else
    "The smart contract requires significant security improvements and thorough testing before deployment."

/-- `generateComprehensiveReport` from part_006. -/
def generateComprehensiveReport (contractName : String)
    (analysisResults : AnalysisResultsIn)
    (vulnerabilityResults : VulnerabilityResultsIn)
    (gasResults : GasResultsIn) : AuditReport :=
  let allFindings :=
    analysisResults.issues.map issueToFinding ++
      vulnerabilityResults.vulnerabilities.map vulnToFinding
  let findings := reportFindingCounts allFindings
  let riskLevel := reportRiskLevel findings
  let executiveSummary := generateExecutiveSummary contractName
    analysisResults.securityScore findings riskLevel
  let recommendations :=
    vulnerabilityResults.recommendations ++
      gasResults.optimizations.map (fun o => o.recommendation) ++
      ["Implement comprehensive unit tests covering all edge cases",
        "Consider formal verification for critical functions",
        "Set up continuous security monitoring"]
  let conclusion :=
    generateConclusion analysisResults.securityScore riskLevel findings
  { contractName := contractName
    executiveSummary := executiveSummary
    securityScore := analysisResults.securityScore
    riskLevel := riskLevel
    findings := findings
    detailedFindings := allFindings
    gasOptimizations := gasResults.optimizations.map
      (fun o => o.type ++ ": " ++ o.description ++ " (" ++ o.estimatedSavings ++ ")")
    recommendations := recommendations.take 10
    conclusion := conclusion }

/-! ### Anomaly detector (part_008) -/

/-- Sensitivity levels of the anomaly detector. -/
inductive Sensitivity where
  | low
  | medium
  | high
  deriving DecidableEq, Repr

/-- Structural features extracted from the code (`CodeFeatures`).
`nestingDepth` is the maximum value reached by the running
`open − close` brace counter, which lives in `ℤ` exactly as the
JavaScript number does. -/
structure CodeFeatures where
  functionComplexity : Nat
  cyclomaticComplexity : Nat
  nestingDepth : Int
  externalCalls : Nat
  stateChanges : Nat
  accessControlChecks : Nat
  arithmeticOperations : Nat
  loopCount : Nat
  conditionCount : Nat
  variableCount : Nat
  deriving DecidableEq, Repr

/-- State machine for the global regex `\b(\w+)\s*=/g`: it emits, in match
order, the word of every `word (spaces) =` occurrence starting at a word
boundary, resuming the scan after each matched `=`.  States: outside a
candidate (tracking whether the previous character was a word character),
inside the candidate word, or in the whitespace between word and `=`. -/
inductive VarScanSt where
  | outside (prevWord : Bool)
  | inWord (w : Str)
  | spaces (w : Str)

/-- Transition function of the `\b(\w+)\s*=/g` scan. -/
def varScanAux : VarScanSt → Str → List Str
  | _, [] => []
  | VarScanSt.outside prevW, c :: rest =>
    if isWordChar c && !prevW then varScanAux (VarScanSt.inWord [c]) rest
    else varScanAux (VarScanSt.outside (isWordChar c)) rest
  | VarScanSt.inWord w, c :: rest =>
    if isWordChar c then varScanAux (VarScanSt.inWord (w ++ [c])) rest
    else if isJsSpace c then varScanAux (VarScanSt.spaces w) rest
    else if c = '=' then w :: varScanAux (VarScanSt.outside false) rest
    else varScanAux (VarScanSt.outside false) rest
  | VarScanSt.spaces w, c :: rest =>
    if isJsSpace c then varScanAux (VarScanSt.spaces w) rest
    else if c = '=' then w :: varScanAux (VarScanSt.outside false) rest
    else if isWordChar c then varScanAux (VarScanSt.inWord [c]) rest
    else varScanAux (VarScanSt.outside false) rest

/-- All assignment-target words of a line (`line.match(/\b(\w+)\s*=/g)`
with the `\s*=` suffix stripped from each match). -/
def varAssignWords (s : Str) : List Str :=
  varScanAux (VarScanSt.outside false) s

/-- Insert a name into the `Set` of variables (insertion-ordered, distinct). -/
def insertDistinct (vars : List Str) (w : Str) : List Str :=
  if w ∈ vars then vars else vars ++ [w]

/-- Accumulator state of the `extractCodeFeatures` line loop. -/
structure FeatureSt where
  functionComplexity : Nat
  cyclomaticComplexity : Nat
  nesting : Int
  maxNesting : Int
  externalCalls : Nat
  stateChanges : Nat
  accessControlChecks : Nat
  arithmeticOperations : Nat
  loopCount : Nat
  conditionCount : Nat
  varNames : List Str
  deriving Repr

/-- Initial state: `cyclomaticComplexity` starts at 1 in the source. -/
def initFeatureSt : FeatureSt :=
  { functionComplexity := 0, cyclomaticComplexity := 1, nesting := 0
    maxNesting := 0, externalCalls := 0, stateChanges := 0
    accessControlChecks := 0, arithmeticOperations := 0, loopCount := 0
    conditionCount := 0, varNames := [] }

/-- Loop body of `extractCodeFeatures` for one line. -/
def featureStep (st : FeatureSt) (line : Str) : FeatureSt :=
  let t := jsTrim line
  let nesting' := st.nesting + t.count (Char.ofNat 123) - t.count (Char.ofNat 125)
  { functionComplexity :=
      st.functionComplexity +
        (if listContains t ("function ".toList) then 1 else 0)
    cyclomaticComplexity :=
      st.cyclomaticComplexity +
        (if listContains t ("if ".toList) || listContains t ("else".toList) ||
            listContains t ("for ".toList) || listContains t ("while ".toList) ||
            listContains t ("case ".toList) || listContains t ("&&".toList) ||
            listContains t ("||".toList)
         then 1 else 0)
    nesting := nesting'
    maxNesting := max st.maxNesting nesting'
    externalCalls :=
      st.externalCalls +
        (if listContains t (".call(".toList) ||
            listContains t (".delegatecall(".toList) ||
            listContains t (".send(".toList) ||
            listContains t (".transfer(".toList)
         then 1 else 0)
    stateChanges :=
      st.stateChanges +
        (if listContains t ("=".toList) && !listContains t ("==".toList) &&
            !listContains t ("!=".toList) && !listContains t ("<=".toList) &&
            !listContains t (">=".toList)
         then 1 else 0)
    accessControlChecks :=
      st.accessControlChecks +
        (if listContains t ("require(".toList) ||
            listContains t ("assert(".toList) ||
            listContains t ("onlyOwner".toList) ||
            listContains t ("msg.sender".toList)
         then 1 else 0)
    arithmeticOperations :=
      st.arithmeticOperations +
        t.countP (fun c =>
          c == '+' || c == '-' || c == '*' || c == '/' || c == '%')
    loopCount :=
      st.loopCount +
        (if listContains t ("for ".toList) || listContains t ("while ".toList)
         then 1 else 0)
    conditionCount :=
      st.conditionCount + (if listContains t ("if ".toList) then 1 else 0)
    varNames :=
      (varAssignWords t).foldl
        (fun acc w => if w.length > 1 then insertDistinct acc w else acc)
        st.varNames }

/-- `extractCodeFeatures` from part_008. -/
def extractCodeFeatures (lines : List Str) : CodeFeatures :=
  let st := lines.foldl featureStep initFeatureSt
  { functionComplexity := st.functionComplexity
    cyclomaticComplexity := st.cyclomaticComplexity
    nestingDepth := st.maxNesting
    externalCalls := st.externalCalls
    stateChanges := st.stateChanges
    accessControlChecks := st.accessControlChecks
    arithmeticOperations := st.arithmeticOperations
    loopCount := st.loopCount
    conditionCount := st.conditionCount
    variableCount := st.varNames.length }

/-- An anomaly record; `features` is the `Partial<CodeFeatures>` payload
as (name, value) pairs. -/
structure AnomalyRecord where
  type : String
  severity : Severity
  confidence : ℚ
  location : String
  description : String
  recommendation : String
  features : List (String × Int)
  deriving DecidableEq, Repr

/-- Sensitivity-adjusted thresholds (`getAnomalyThresholds`); the integer
thresholds pass through `Math.floor`, the access-control ratio does not. -/
structure AnomalyThresholds where
  complexity : Nat
  externalCalls : Nat
  accessControlRatio : ℚ
  stateChanges : Nat
  nestingDepth : Nat
  deriving DecidableEq, Repr

/-- `getAnomalyThresholds` from part_008. -/
def getAnomalyThresholds (sens : Sensitivity) : AnomalyThresholds :=
  let multiplier : ℚ :=
    match sens with
    | Sensitivity.low => 3 / 2
    | Sensitivity.high => 7 / 10
    | Sensitivity.medium => 1
  { complexity := (⌊(15 : ℚ) * multiplier⌋).toNat
    externalCalls := (⌊(5 : ℚ) * multiplier⌋).toNat
    accessControlRatio := (3 / 10 : ℚ) * multiplier
    stateChanges := (⌊(20 : ℚ) * multiplier⌋).toNat
    nestingDepth := (⌊(4 : ℚ) * multiplier⌋).toNat }

/-- The inline-assembly anomaly of `detectPatternAnomalies`. -/
def assemblyAnomaly (i : Nat) : AnomalyRecord :=
  { type := "Inline Assembly Anomaly"
    severity := Severity.High
    confidence := 9 / 10
    location := "Line " ++ toString (i + 1)
    description := "Inline assembly usage detected - potential for low-level vulnerabilities"
    recommendation := "Review assembly code carefully and consider safer alternatives"
    features := [] }

/-- The suspicious-variable-name anomaly of `detectPatternAnomalies`. -/
def suspiciousNameAnomaly (i : Nat) (name : String) : AnomalyRecord :=
  { type := "Suspicious Variable Naming"
    severity := Severity.Low
    confidence := 3 / 5
    location := "Line " ++ toString (i + 1)
    description := "Potentially obfuscated variable name '" ++ name ++ "' detected"
    recommendation := "Use descriptive variable names for better code clarity"
    features := [] }

/-- The manual-gas-management anomaly of `detectPatternAnomalies`. -/
def gasAnomaly (i : Nat) : AnomalyRecord :=
  { type := "Manual Gas Management"
    severity := Severity.Medium
    confidence := 3 / 4
    location := "Line " ++ toString (i + 1)
    description := "Manual gas management detected - potential for gas-related vulnerabilities"
    recommendation := "Review gas management logic for potential DoS vulnerabilities"
    features := [] }

/-- The suspicious-name list of `detectPatternAnomalies`. -/
def suspiciousNames : List String :=
  ["temp", "tmp", "x", "y", "z", "data", "val"]

/-- `detectPatternAnomalies` body for one line. -/
def patternAnomaliesLine (i : Nat) (line : Str) : List AnomalyRecord :=
  let t := jsTrim line
  (if listContains t ("assembly \x7b".toList) then [assemblyAnomaly i] else []) ++
  suspiciousNames.flatMap (fun name =>
    if listContains t ((name ++ " =").toList) ||
        listContains t ((name ++ "=").toList)
    then [suspiciousNameAnomaly i name] else []) ++
  (if listContains t ("gasleft()".toList) || listContains t ("gas:".toList)
    then [gasAnomaly i] else [])

/-- `detectPatternAnomalies` from part_008. -/
def detectPatternAnomalies : List Str → Nat → List AnomalyRecord
  | [], _ => []
  | l :: rest, i => patternAnomaliesLine i l ++ detectPatternAnomalies rest (i + 1)

/-- The Critical access-control anomaly of `detectCodeAnomalies`. -/
def accessControlAnomaly (features : CodeFeatures) : AnomalyRecord :=
  { type := "Insufficient Access Control"
    severity := Severity.Critical
    confidence := 9 / 10
    location := "Contract-wide"
    description := "Anomalously low access control checks relative to function count"
    recommendation := "Implement proper access control mechanisms for all sensitive functions"
    features := [("accessControlChecks", (features.accessControlChecks : Int))] }

/-- `detectCodeAnomalies` from part_008 (the threshold-table pass plus the
line-level pattern pass, in push order). -/
def detectCodeAnomalies (lines : List Str) (features : CodeFeatures)
    (sens : Sensitivity) : List AnomalyRecord :=
  let thresholds := getAnomalyThresholds sens
  (if features.cyclomaticComplexity > thresholds.complexity then
    [{ type := "High Complexity Anomaly"
       severity :=
        if features.cyclomaticComplexity > thresholds.complexity * 2
        then Severity.High else Severity.Medium
       confidence := min (19 / 20)
        ((features.cyclomaticComplexity : ℚ) / thresholds.complexity * (3 / 5))
       location := "Contract-wide"
       description := "Unusually high cyclomatic complexity (" ++
        toString features.cyclomaticComplexity ++ ") detected"
       recommendation := "Consider breaking down complex functions into smaller, more manageable pieces"
       features := [("cyclomaticComplexity", (features.cyclomaticComplexity : Int))] }]
   else []) ++
  (if features.externalCalls > thresholds.externalCalls then
    [{ type := "Excessive External Calls"
       severity := Severity.High
       confidence := 17 / 20
       location := "Multiple locations"
       description := "Unusually high number of external calls (" ++
        toString features.externalCalls ++ ") detected"
       recommendation := "Review external call patterns for potential reentrancy and gas optimization"
       features := [("externalCalls", (features.externalCalls : Int))] }]
   else []) ++
  (if (features.accessControlChecks : ℚ) / max 1 (features.functionComplexity : ℚ)
      < thresholds.accessControlRatio then
    [accessControlAnomaly features]
   else []) ++
  (if features.stateChanges > thresholds.stateChanges then
    [{ type := "Excessive State Modifications"
       severity := Severity.Medium
       confidence := 3 / 4
       location := "Contract-wide"
       description := "High number of state changes (" ++
        toString features.stateChanges ++ ") detected"
       recommendation := "Review state modification patterns for gas optimization and security"
       features := [("stateChanges", (features.stateChanges : Int))] }]
   else []) ++
  (if features.nestingDepth > (thresholds.nestingDepth : Int) then
    [{ type := "Deep Nesting Anomaly"
       severity := Severity.Medium
       confidence := 4 / 5
       location := "Multiple functions"
       description := "Unusually deep nesting (" ++
        toString features.nestingDepth ++ " levels) detected"
       recommendation := "Refactor deeply nested code to improve readability and reduce complexity"
       features := [("nestingDepth", features.nestingDepth)] }]
   else []) ++
  detectPatternAnomalies lines 0

/-- Severity weights of `calculateAnomalyScore` (its `|| 0.1` fallback is
unreachable on the closed severity type). -/
def severityWeight : Severity → ℚ
  | Severity.Critical => 1
  | Severity.High => 4 / 5
  | Severity.Medium => 1 / 2
  | Severity.Low => 1 / 5

/-- `calculateAnomalyScore` from part_008 (its `features` parameter is
unused by the body, as in the source). -/
def calculateAnomalyScore (anomalies : List AnomalyRecord)
    (features : CodeFeatures) : ℚ :=
  let totalScore := anomalies.foldl
    (fun acc a => acc + severityWeight a.severity * a.confidence) 0
  min 100 (totalScore * 20)

/-- `generateRiskAssessment` from part_008. -/
def generateRiskAssessment (anomalyScore : ℚ)
    (anomalies : List AnomalyRecord) : String :=
  let criticalCount :=
    anomalies.countP (fun a => decide (a.severity = Severity.Critical))
  let highCount :=
    anomalies.countP (fun a => decide (a.severity = Severity.High))
  if anomalyScore > 80 ∨ criticalCount > 0 then
    "CRITICAL: Multiple high-risk anomalies detected. Immediate security review required."
  else if anomalyScore > 60 ∨ highCount > 1 then
    "HIGH: Significant anomalies detected. Thorough security audit recommended."
  else if anomalyScore > 40 then
    "MEDIUM: Some anomalies detected. Security review advised before deployment."
  else
    "LOW: Minor anomalies detected. Standard security practices should be sufficient."

/-- The parts of `detectAnomalies`'s result that feed scoring and risk
(`behavioralAnalysis` and `novelPatterns` are descriptive outputs that
never flow into the anomaly list, score or risk assessment — spec §4.4 —
and are not modelled). -/
structure AnomalyDetectionResult where
  anomalies : List AnomalyRecord
  overallAnomalyScore : ℚ
  riskAssessment : String
  deriving DecidableEq, Repr

/-- `detectAnomalies` from part_008. -/
def detectAnomalies (code : Str) (sens : Sensitivity) :
    AnomalyDetectionResult :=
  let lines := splitOnNewline code
  let features := extractCodeFeatures lines
  let anomalies := detectCodeAnomalies lines features sens
  let score := calculateAnomalyScore anomalies features
  { anomalies := anomalies
    overallAnomalyScore := score
    riskAssessment := generateRiskAssessment score anomalies }

/-! ### Formal-verification checklist evaluator (part_009)

Only the property list and the three per-method property updates are
modelled: the reporting-only outputs (reachability statistics, traces,
paths-explored counters, assertion-violation strings, numeric domains) are
never read back by any property verdict and are omitted. -/

/-- Property kinds. -/
inductive PropertyType where
  | invariant
  | precondition
  | postcondition
  | temporal
  | safety
  | liveness
  deriving DecidableEq, Repr

/-- A formal property record. -/
structure FormalProperty where
  id : String
  name : String
  type : PropertyType
  specification : String
  verified : Bool
  counterexample : Option String
  confidence : ℚ
  deriving DecidableEq, Repr

/-- The caller-supplied custom properties, in order, with 1-based ids. -/
def customPropsAux : Nat → List String → List FormalProperty
  | _, [] => []
  | n, p :: ps =>
    { id := "CUSTOM_" ++ toString (n + 1)
      name := "Custom Property " ++ toString (n + 1)
      type := PropertyType.invariant
      specification := p
      verified := false
      counterexample := none
      confidence := 0 } :: customPropsAux (n + 1) ps

/-- The `SAFETY_001` base property. -/
def safety001 : FormalProperty :=
  { id := "SAFETY_001", name := "No Integer Overflow"
    type := PropertyType.safety
    specification := "∀ operations: result ≤ MAX_UINT256"
    verified := false, counterexample := none, confidence := 0 }

/-- The `SAFETY_002` base property. -/
def safety002 : FormalProperty :=
  { id := "SAFETY_002", name := "No Reentrancy"
    type := PropertyType.safety
    specification := "∀ external_calls: ¬(state_change_after_call)"
    verified := false, counterexample := none, confidence := 0 }

/-- The `SAFETY_003` base property. -/
def safety003 : FormalProperty :=
  { id := "SAFETY_003", name := "Access Control Integrity"
    type := PropertyType.safety
    specification := "∀ privileged_functions: requires_authorization"
    verified := false, counterexample := none, confidence := 0 }

/-- The contract-shape-conditional properties of
`extractFormalProperties`, in push order. -/
def condProps (code : Str) : List FormalProperty :=
  (if listContains code ("mapping".toList) &&
      listContains code ("balance".toList) then
    [{ id := "INV_001", name := "Balance Non-Negative"
       type := PropertyType.invariant
       specification := "∀ address a: balances[a] ≥ 0"
       verified := false, counterexample := none, confidence := 0 },
     { id := "INV_002", name := "Total Supply Conservation"
       type := PropertyType.invariant
       specification := "Σ balances[i] = totalSupply"
       verified := false, counterexample := none, confidence := 0 }]
   else []) ++
  (if listContains code ("owner".toList) then
    [{ id := "INV_003", name := "Owner Non-Zero"
       type := PropertyType.invariant
       specification := "owner ≠ 0x0"
       verified := false, counterexample := none, confidence := 0 }]
   else []) ++
  (if listContains code ("withdraw".toList) ||
      listContains code ("transfer".toList) then
    [{ id := "TEMP_001", name := "Eventually Withdrawable"
       type := PropertyType.liveness
       specification := "◊(balance > 0 → ◊ withdraw_possible)"
       verified := false, counterexample := none, confidence := 0 }]
   else [])

/-- `extractFormalProperties` from part_009: the three base safety
properties, then the contract-shape-conditional ones, then the
caller-supplied custom properties. -/
def extractFormalProperties (code : Str) (customProperties : List String) :
    List FormalProperty :=
  safety001 :: safety002 :: safety003 ::
    (condProps code ++ customPropsAux 0 customProperties)

/-- The `safetyViolations` list assembled by `performModelChecking`. -/
def mcSafetyViolations (code : Str) : List String :=
  (if (listContains code ("+".toList) || listContains code ("*".toList)) &&
      !(listContains code ("SafeMath".toList) ||
        listContains code ("pragma solidity ^0.8".toList)) then
    ["Potential integer overflow in arithmetic operations"]
   else []) ++
  (if listContains code (".call(".toList) &&
      !listContains code ("nonReentrant".toList) then
    ["Potential reentrancy vulnerability detected"]
   else []) ++
  (if (listContains code ("selfdestruct".toList) ||
        listContains code ("transferOwnership".toList)) &&
      !(listContains code ("onlyOwner".toList) ||
        listContains code ("msg.sender == owner".toList)) then
    ["Privileged functions without proper access control"]
   else [])

/-- The property mutation performed by `performModelChecking` on one
property (`properties.forEach` over the shared list). -/
def mcUpdateProp (code : Str) (p : FormalProperty) : FormalProperty :=
  if p.type = PropertyType.safety then
    if strIncludes p.name "Overflow" &&
        (mcSafetyViolations code).any (fun v => strIncludes v "overflow") then
      { p with verified := false
               counterexample :=
                some "Arithmetic operation without overflow protection" }
    else if strIncludes p.name "Reentrancy" &&
        (mcSafetyViolations code).any (fun v => strIncludes v "reentrancy") then
      { p with verified := false
               counterexample := some "External call followed by state change" }
    else { p with verified := true, confidence := 17 / 20 }
  else p

/-- The `overflowChecks` list assembled by `performSymbolicExecution`:
one entry per line whose trimmed text contains `+` or `*` without a
same-line `SafeMath` and without a `pragma solidity ^0.8` line anywhere. -/
def symOverflowAux (pragma08 : Bool) : List Str → Nat → List String
  | [], _ => []
  | l :: rest, i =>
    let t := jsTrim l
    if (listContains t ("+".toList) || listContains t ("*".toList)) &&
        !(listContains t ("SafeMath".toList) || pragma08) then
      ("Line " ++ toString (i + 1) ++ ": Unchecked arithmetic operation") ::
        symOverflowAux pragma08 rest (i + 1)
    else symOverflowAux pragma08 rest (i + 1)

/-- Whether some line contains `pragma solidity ^0.8`. -/
def hasPragma08Line (lines : List Str) : Bool :=
  lines.any (fun l => listContains l ("pragma solidity ^0.8".toList))

/-- `overflowChecks` of `performSymbolicExecution`. -/
def symOverflowChecks (code : Str) : List String :=
  symOverflowAux (hasPragma08Line (splitOnNewline code)) (splitOnNewline code) 0

/-- `accessControlViolations` of `performSymbolicExecution`, with its
five-line `lines.slice(Math.max(0, index - 5), index)` lookback. -/
def symAccessAux : List Str → List Str → Nat → List String
  | _, [], _ => []
  | before, l :: rest, i =>
    let t := jsTrim l
    (if listContains t ("selfdestruct".toList) ||
        listContains t ("transferOwnership".toList) then
      (if listContains t ("onlyOwner".toList) ||
          (before.drop (before.length - 5)).any
            (fun pl => listContains pl ("require(msg.sender == owner)".toList))
       then []
       else ["Line " ++ toString (i + 1) ++
              ": Privileged operation without authorization"])
     else []) ++ symAccessAux (before ++ [l]) rest (i + 1)

/-- `accessControlViolations` of `performSymbolicExecution`. -/
def symAccessViolations (code : Str) : List String :=
  symAccessAux [] (splitOnNewline code) 0

/-- The property mutation performed by `performSymbolicExecution`: the two
independent `if` blocks over `Integer Overflow` and `Access Control`
names.  A counterexample is only (over)written in the unverified case. -/
def seUpdateProp (code : Str) (p : FormalProperty) : FormalProperty :=
  let p1 :=
    if strIncludes p.name "Integer Overflow" then
      let v := (symOverflowChecks code).isEmpty
      { p with verified := v
               confidence := if v then 9 / 10 else 1 / 10
               counterexample :=
                if v then p.counterexample else (symOverflowChecks code).head? }
    else p
  if strIncludes p1.name "Access Control" then
    let v := (symAccessViolations code).isEmpty
    { p1 with verified := v
              confidence := if v then 17 / 20 else 1 / 5
              counterexample :=
                if v then p1.counterexample
                else (symAccessViolations code).head? }
  else p1

/-- One entry of the `intervalAnalysis` strings of
`performAbstractInterpretation`: the first `/(\w+)\s*=\s*(\d+)/` match of
a line. -/
def varNumAt (s : Str) : Option (Str × Str) :=
  let w := wordRun s
  if w.1 = [] then none
  else
    let p := spacesRun w.2
    match p.2 with
    | '=' :: r1 =>
      let p2 := spacesRun r1
      let d := digitsRun p2.2
      if d.1 = [] then none else some (w.1, d.1)
    | _ => none

/-- The `intervalAnalysis` strings, line by line. -/
def aiIntervalAux : List Str → Nat → List String
  | [], _ => []
  | l :: rest, i =>
    (match scanFirst varNumAt l with
     | some vd =>
       [String.mk vd.1 ++ " ∈ [" ++ String.mk vd.2 ++ ", " ++ String.mk vd.2 ++
         "] at line " ++ toString (i + 1)]
     | none => []) ++ aiIntervalAux rest (i + 1)

/-- `intervalAnalysis` of `performAbstractInterpretation`. -/
def aiIntervalAnalysis (code : Str) : List String :=
  aiIntervalAux (splitOnNewline code) 0

/-- The property mutation performed by `performAbstractInterpretation`
(it touches only `Balance Non-Negative` invariants). -/
def aiUpdateProp (code : Str) (p : FormalProperty) : FormalProperty :=
  if p.type = PropertyType.invariant &&
      strIncludes p.name "Balance Non-Negative" then
    let hasNeg := (aiIntervalAnalysis code).any
      (fun a => strIncludes a "balance" && strIncludes a "[-")
    { p with verified := !hasNeg, confidence := 4 / 5 }
  else p

/-- The shared property list after `performFormalVerification` with method
`"all"`: the model-checking pass, then the symbolic-execution pass, then
the abstract-interpretation pass, each mutating the same records in order
(last write wins). -/
def propertiesAfterAll (code : Str) (customProperties : List String) :
    List FormalProperty :=
  (((extractFormalProperties code customProperties).map
      (mcUpdateProp code)).map (seUpdateProp code)).map (aiUpdateProp code)

/-! ### Helper lemmas for the claims -/

theorem scoreFromCounts_nonneg (c h m l : Nat) :
    0 ≤ scoreFromCounts c h m l :=
  le_max_left 0 _

theorem scoreFromCounts_le_100 (c h m l : Nat) :
    scoreFromCounts c h m l ≤ 100 := by
  unfold scoreFromCounts
  apply max_le <;> omega

theorem foldl_add_map_sum (f : AnomalyRecord → ℚ) (l : List AnomalyRecord)
    (init : ℚ) :
    l.foldl (fun acc a => acc + f a) init = init + (l.map f).sum := by
  induction l generalizing init with
  | nil => simp
  | cons a as ih =>
    simp only [List.foldl_cons, List.map_cons, List.sum_cons]
    rw [ih, add_assoc]

theorem riskRank_le_three (s : String) :
    (if s == "Critical" then 3 else if s == "High" then 2
      else if s == "Medium" then 1 else 0) ≤ 3 := by
  repeat' split
  all_goals omega

/-! ### Claims -/

/-- Severity rank of a risk-level string, the spec's ordering
Low < Medium < High < Critical. -/
def riskRank (s : String) : Nat :=
  if s == "Critical" then 3 else if s == "High" then 2
  else if s == "Medium" then 1 else 0

/-- C1: for every issues list produced by `analyzeContract`, the returned
`securityScore` equals `max 0 (100 − (25·critical + 15·high + 8·medium +
3·low))` over those issues, hence always lies in [0, 100]. -/
theorem c1_security_score (code : Str) (name : Option String)
    (r : AnalysisResult) (h : analyzeContract code name = Except.ok r) :
    r.securityScore =
      scoreFromCounts
        (countSeverity (discoveredIssues (jsTrim code)) Severity.Critical)
        (countSeverity (discoveredIssues (jsTrim code)) Severity.High)
        (countSeverity (discoveredIssues (jsTrim code)) Severity.Medium)
        (countSeverity (discoveredIssues (jsTrim code)) Severity.Low) ∧
    0 ≤ r.securityScore ∧ r.securityScore ≤ 100 := by
  unfold analyzeContract at h
  split at h
  · exact absurd h (by simp)
  · split at h
    · exact absurd h (by simp)
    · rw [Except.ok.injEq] at h
      subst h
      exact ⟨rfl, scoreFromCounts_nonneg _ _ _ _, scoreFromCounts_le_100 _ _ _ _⟩

/-- Concrete run of the analyzer on a one-line contract (for the C1 witness). -/
def c1Result : AnalysisResult :=
  ((analyzeContract ("contract C \x7b\x7d".toList) none).toOption).getD
    ⟨"", 0, 0, [], [], ""⟩

/-- Witness for C1 at a concrete contract. -/
theorem c1_security_score_witness :
    c1Result.securityScore =
      scoreFromCounts
        (countSeverity (discoveredIssues (jsTrim ("contract C \x7b\x7d".toList)))
          Severity.Critical)
        (countSeverity (discoveredIssues (jsTrim ("contract C \x7b\x7d".toList)))
          Severity.High)
        (countSeverity (discoveredIssues (jsTrim ("contract C \x7b\x7d".toList)))
          Severity.Medium)
        (countSeverity (discoveredIssues (jsTrim ("contract C \x7b\x7d".toList)))
          Severity.Low) ∧
    0 ≤ c1Result.securityScore ∧ c1Result.securityScore ≤ 100 :=
  c1_security_score ("contract C \x7b\x7d".toList) none c1Result (by rfl)

/-- C2 (amended): the report builder copies the supplied
`analysisResults.securityScore` into the report unchanged, while the
per-severity `findings` counters are computed across all supplied
findings and vulnerabilities combined. -/
theorem c2_report_score_amended (contractName : String)
    (a : AnalysisResultsIn) (v : VulnerabilityResultsIn) (g : GasResultsIn) :
    (generateComprehensiveReport contractName a v g).securityScore =
      a.securityScore ∧
    (generateComprehensiveReport contractName a v g).findings =
      reportFindingCounts
        (a.issues.map issueToFinding ++ v.vulnerabilities.map vulnToFinding) :=
  ⟨rfl, rfl⟩

/-- A concrete Critical vulnerability record (for the C2 counterexample). -/
def c2Vuln : Vulnerability :=
  { id := "VULN-001", severity := Severity.Critical, name := "Reentrancy"
    description := "Reentrancy in withdraw", remediation := "Add a guard"
    location := "Line 5" }

/-- The report built from a perfect-score analysis plus one Critical
vulnerability (for the C2 counterexample). -/
def c2Report : AuditReport :=
  generateComprehensiveReport ("C") ⟨100, [], []⟩ ⟨[c2Vuln], "High", []⟩
    ⟨[], ("0 gas")⟩

/-- C2 counterexample: with a supplied score of 100 and one Critical
vulnerability, the combined severity counts are (1,0,0,0), the claimed
formula gives 75, but the report's `securityScore` is the copied 100. -/
theorem c2_counterexample :
    c2Report.findings = ⟨1, 0, 0, 0⟩ ∧
    scoreFromCounts c2Report.findings.critical c2Report.findings.high
      c2Report.findings.medium c2Report.findings.low = 75 ∧
    c2Report.securityScore = 100 ∧
    c2Report.securityScore ≠
      scoreFromCounts c2Report.findings.critical c2Report.findings.high
        c2Report.findings.medium c2Report.findings.low := by
  refine ⟨by decide, by decide, by decide, by decide⟩

/-- C6: the analyzer does *not* warn-and-continue on well-sized input that
has neither a `pragma solidity` nor a `contract <Name>` marker — it fails
the call with an error (divergence between the code and the spec's
warn-not-hard-fail requirement, which the repo's own unit test
"should handle invalid Solidity code" also expects). -/
theorem c6_invalid_solidity_throws :
    analyzeContract ("This is not Solidity code".toList) none =
      Except.error ("Input does not appear to be valid Solidity code") := by
  rfl

/-- C7: `calculateAnomalyScore` equals
`min(100, 20 · Σ severityWeight(severity) · confidence)` over the records. -/
theorem c7_anomaly_score (anomalies : List AnomalyRecord)
    (features : CodeFeatures) :
    calculateAnomalyScore anomalies features =
      min 100
        (20 * (anomalies.map
          (fun a => severityWeight a.severity * a.confidence)).sum) := by
  unfold calculateAnomalyScore
  rw [foldl_add_map_sum, zero_add, mul_comm]

/-- Per-severity counters of a bare severity multiset (a "findings set"). -/
def findingsOfSeverities (sevs : List Severity) : ReportFindings :=
  { critical := sevs.countP (fun s => decide (s = Severity.Critical))
    high := sevs.countP (fun s => decide (s = Severity.High))
    medium := sevs.countP (fun s => decide (s = Severity.Medium))
    low := sevs.countP (fun s => decide (s = Severity.Low)) }

/-- C8: adding one more Critical finding to a findings set never increases
the `securityScore` of the aggregator's formula and never decreases the
severity rank of its `riskLevel`. -/
theorem c8_monotonicity (fs fs' : List Severity)
    (hperm : fs'.Perm (Severity.Critical :: fs)) :
    scoreFromCounts (findingsOfSeverities fs').critical
        (findingsOfSeverities fs').high (findingsOfSeverities fs').medium
        (findingsOfSeverities fs').low ≤
      scoreFromCounts (findingsOfSeverities fs).critical
        (findingsOfSeverities fs).high (findingsOfSeverities fs).medium
        (findingsOfSeverities fs).low ∧
    riskRank (reportRiskLevel (findingsOfSeverities fs)) ≤
      riskRank (reportRiskLevel (findingsOfSeverities fs')) := by
  have hcrit : (findingsOfSeverities fs').critical =
      (findingsOfSeverities fs).critical + 1 := by
    simp [findingsOfSeverities, hperm.countP_eq, List.countP_cons]
  have hhigh : (findingsOfSeverities fs').high =
      (findingsOfSeverities fs).high := by
    simp [findingsOfSeverities, hperm.countP_eq, List.countP_cons]
  have hmed : (findingsOfSeverities fs').medium =
      (findingsOfSeverities fs).medium := by
    simp [findingsOfSeverities, hperm.countP_eq, List.countP_cons]
  have hlow : (findingsOfSeverities fs').low =
      (findingsOfSeverities fs).low := by
    simp [findingsOfSeverities, hperm.countP_eq, List.countP_cons]
  constructor
  · rw [hcrit, hhigh, hmed, hlow]
    unfold scoreFromCounts
    apply max_le_max le_rfl
    push_cast
    omega
  · have hlevel : reportRiskLevel (findingsOfSeverities fs') = "Critical" := by
      unfold reportRiskLevel
      rw [if_pos (by omega)]
    rw [hlevel]
    unfold riskRank
    exact riskRank_le_three _

/-- Concrete 42-line contract with 41 `tx.origin` lines (the stateful
`lastIndex` of the `/g` regex makes every other one match), producing 21
discovered issues (for the C9 existence part and witness). -/
def c9Code : Str :=
  joinNewline (("contract C \x7b".toList) ::
    List.replicate 41 ("tx.origin".toList))

/-- Concrete run of the analyzer on `c9Code`. -/
def c9Result : AnalysisResult :=
  ((analyzeContract c9Code none).toOption).getD ⟨"", 0, 0, [], [], ""⟩

/-- C9: every successful analysis returns at most 20 issues and at most 5
gas-optimisation strings, with the returned issues being the 20-element
truncation of the discovered list, while `securityScore` and the summary
counts are computed from the full discovered list before truncation; and
there is an input whose discovered list is strictly longer than the
returned one, so the score reflects issues absent from the response. -/
theorem c9_truncation :
    (∀ (code : Str) (name : Option String) (r : AnalysisResult),
      analyzeContract code name = Except.ok r →
      r.issues.length ≤ 20 ∧ r.gasOptimizations.length ≤ 5 ∧
      r.issues = (discoveredIssues (jsTrim code)).take 20 ∧
      r.securityScore =
        scoreFromCounts
          (countSeverity (discoveredIssues (jsTrim code)) Severity.Critical)
          (countSeverity (discoveredIssues (jsTrim code)) Severity.High)
          (countSeverity (discoveredIssues (jsTrim code)) Severity.Medium)
          (countSeverity (discoveredIssues (jsTrim code)) Severity.Low) ∧
      r.summary =
        generateSummary r.contractName r.securityScore
          (discoveredIssues (jsTrim code)).length
          (countSeverity (discoveredIssues (jsTrim code)) Severity.Critical)
          (countSeverity (discoveredIssues (jsTrim code)) Severity.High)) ∧
    (∃ (code : Str) (r : AnalysisResult),
      analyzeContract code none = Except.ok r ∧
      20 < (discoveredIssues (jsTrim code)).length ∧
      r.issues.length = 20) := by
  constructor
  · intro code name r h
    unfold analyzeContract at h
    split at h
    · exact absurd h (by simp)
    · split at h
      · exact absurd h (by simp)
      · rw [Except.ok.injEq] at h
        subst h
        refine ⟨?_, ?_, rfl, rfl, rfl⟩
        · rw [show (analyzeOkResult (jsTrim code)
              (finalNameOf (jsTrim code) name)).issues =
                (discoveredIssues (jsTrim code)).take 20 from rfl]
          rw [List.length_take]
          exact min_le_left _ _
        · rw [show (analyzeOkResult (jsTrim code)
              (finalNameOf (jsTrim code) name)).gasOptimizations =
                (gasOptimizationsOf (jsTrim code)).take 5 from rfl]
          rw [List.length_take]
          exact min_le_left _ _
  · exact ⟨c9Code, c9Result, by rfl, by decide, by decide⟩

/-- Witness for the universally quantified part of C9 at `c9Code`. -/
theorem c9_truncation_witness :
    c9Result.issues.length ≤ 20 ∧ c9Result.gasOptimizations.length ≤ 5 ∧
    c9Result.issues = (discoveredIssues (jsTrim c9Code)).take 20 ∧
    c9Result.securityScore =
      scoreFromCounts
        (countSeverity (discoveredIssues (jsTrim c9Code)) Severity.Critical)
        (countSeverity (discoveredIssues (jsTrim c9Code)) Severity.High)
        (countSeverity (discoveredIssues (jsTrim c9Code)) Severity.Medium)
        (countSeverity (discoveredIssues (jsTrim c9Code)) Severity.Low) ∧
    c9Result.summary =
      generateSummary c9Result.contractName c9Result.securityScore
        (discoveredIssues (jsTrim c9Code)).length
        (countSeverity (discoveredIssues (jsTrim c9Code)) Severity.Critical)
        (countSeverity (discoveredIssues (jsTrim c9Code)) Severity.High) :=
  c9_truncation.1 c9Code none c9Result (by rfl)

/-! ### C4 helper lemmas -/

theorem taintPair_fields (lines : List Str) (s k : String) (p : TaintPath)
    (h : taintPair lines s k = some p) :
    p.source = s ∧ p.sink = k := by
  unfold taintPair at h
  cases hi : findIdxContaining lines s with
  | none => rw [hi] at h; cases hj : findIdxContaining lines k <;>
      rw [hj] at h <;> simp at h
  | some i =>
    cases hj : findIdxContaining lines k with
    | none => rw [hi, hj] at h; simp at h
    | some j =>
      rw [hi, hj] at h
      dsimp only at h
      by_cases hij : i < j
      · rw [if_pos hij, Option.some.injEq] at h
        subst h
        exact ⟨rfl, rfl⟩
      · rw [if_neg hij] at h; simp at h

theorem inner_filter_nil_sink (lines : List Str) (s src snk : String)
    (K : List String) (hk : snk ∉ K) :
    ((K.filterMap (taintPair lines s)).filter
      (fun q => decide (q.source = src ∧ q.sink = snk))) = [] := by
  induction K with
  | nil => rfl
  | cons k K' ih =>
    have hkk : snk ≠ k := fun he => hk (he ▸ List.mem_cons_self k K')
    have hK' : snk ∉ K' := fun hm => hk (List.mem_cons_of_mem k hm)
    rw [List.filterMap_cons]
    cases hp : taintPair lines s k with
    | none => exact ih hK'
    | some p =>
      rw [List.filter_cons]
      have hps := (taintPair_fields lines s k p hp).2
      have : decide (p.source = src ∧ p.sink = snk) = false := by
        simp only [decide_eq_false_iff_not]
        rintro ⟨-, h2⟩
        exact hkk (h2 ▸ hps.symm ▸ rfl)
      rw [this]
      simp only [Bool.false_eq_true, if_false]
      exact ih hK'

theorem inner_filter_nil_source (lines : List Str) (s src snk : String)
    (K : List String) (hs : s ≠ src) :
    ((K.filterMap (taintPair lines s)).filter
      (fun q => decide (q.source = src ∧ q.sink = snk))) = [] := by
  induction K with
  | nil => rfl
  | cons k K' ih =>
    rw [List.filterMap_cons]
    cases hp : taintPair lines s k with
    | none => exact ih
    | some p =>
      rw [List.filter_cons]
      have hps := (taintPair_fields lines s k p hp).1
      have : decide (p.source = src ∧ p.sink = snk) = false := by
        simp only [decide_eq_false_iff_not]
        rintro ⟨h1, -⟩
        exact hs (hps ▸ h1)
      rw [this]
      simp only [Bool.false_eq_true, if_false]
      exact ih

theorem inner_filter_singleton (lines : List Str) (s snk : String)
    (K : List String) (p : TaintPath) (hmem : snk ∈ K)
    (hnd : K.Pairwise (· ≠ ·)) (hp : taintPair lines s snk = some p) :
    ((K.filterMap (taintPair lines s)).filter
      (fun q => decide (q.source = s ∧ q.sink = snk))) = [p] := by
  induction K with
  | nil => simp at hmem
  | cons k K' ih =>
    rcases List.mem_cons.mp hmem with rfl | hmem'
    · rw [List.filterMap_cons, hp, List.filter_cons]
      have hfields := taintPair_fields lines s snk p hp
      have : decide (p.source = s ∧ p.sink = snk) = true := by
        simp [hfields.1, hfields.2]
      rw [this]
      simp only [if_pos]
      have hnotin : snk ∉ K' := by
        intro hm
        exact (List.pairwise_cons.mp hnd).1 snk hm rfl
      rw [inner_filter_nil_sink lines s s snk K' hnotin]
    · have hk : k ≠ snk := by
        intro he
        exact (List.pairwise_cons.mp hnd).1 snk hmem' he
      rw [List.filterMap_cons]
      have ihres := ih hmem' (List.pairwise_cons.mp hnd).2
      cases hq : taintPair lines s k with
      | none => exact ihres
      | some q =>
        rw [List.filter_cons]
        have hqs := (taintPair_fields lines s k q hq).2
        have : decide (q.source = s ∧ q.sink = snk) = false := by
          simp only [decide_eq_false_iff_not]
          rintro ⟨-, h2⟩
          exact hk (hqs ▸ h2)
        rw [this]
        simp only [Bool.false_eq_true, if_false]
        exact ihres

theorem outer_filter_nil (lines : List Str) (src snk : String)
    (S : List String) (hs : src ∉ S) :
    ((S.flatMap (fun s => taintSinks.filterMap (taintPair lines s))).filter
      (fun q => decide (q.source = src ∧ q.sink = snk))) = [] := by
  induction S with
  | nil => rfl
  | cons s S' ih =>
    have hss : s ≠ src := fun he => hs (he ▸ List.mem_cons_self s S')
    have hS' : src ∉ S' := fun hm => hs (List.mem_cons_of_mem s hm)
    rw [List.flatMap_cons, List.filter_append,
      inner_filter_nil_source lines s src snk taintSinks hss, ih hS',
      List.nil_append]

theorem outer_filter_singleton (lines : List Str) (src snk : String)
    (S : List String) (p : TaintPath) (hmem : src ∈ S)
    (hnd : S.Pairwise (· ≠ ·)) (hsnk : snk ∈ taintSinks)
    (hsnknd : taintSinks.Pairwise (· ≠ ·))
    (hp : taintPair lines src snk = some p) :
    ((S.flatMap (fun s => taintSinks.filterMap (taintPair lines s))).filter
      (fun q => decide (q.source = src ∧ q.sink = snk))) = [p] := by
  induction S with
  | nil => simp at hmem
  | cons s S' ih =>
    rcases List.mem_cons.mp hmem with he | hmem'
    · subst he
      rw [List.flatMap_cons, List.filter_append,
        inner_filter_singleton lines src snk taintSinks p hsnk hsnknd hp]
      have hnotin : src ∉ S' := by
        intro hm
        exact (List.pairwise_cons.mp hnd).1 src hm rfl
      rw [outer_filter_nil lines src snk S' hnotin]
      simp
    · have hss : s ≠ src := by
        intro he
        exact (List.pairwise_cons.mp hnd).1 src hmem' he
      rw [List.flatMap_cons, List.filter_append,
        inner_filter_nil_source lines s src snk taintSinks hss,
        List.nil_append]
      exact ih hmem' (List.pairwise_cons.mp hnd).2

/-- C4: for every (source, sink) pair from the claimed source list and the
sink list, if both occur and the first line containing the source strictly
precedes the first line containing the sink, `performTaintAnalysis` emits
exactly one vulnerable path for that pair, with severity Critical for
`.delegatecall(`/`selfdestruct(`, High for `.call(`, Medium otherwise. -/
theorem c4_taint_paths (src snk : String) (lines : List Str) (i j : Nat)
    (hsrc : src ∈ ["msg.sender", "msg.value", "tx.origin", "block.timestamp",
      "block.number", "block.coinbase"])
    (hsnk : snk ∈ taintSinks)
    (hi : findIdxContaining lines src = some i)
    (hj : findIdxContaining lines snk = some j)
    (hij : i < j) :
    (performTaintAnalysis lines).vulnerablePaths.filter
        (fun q => decide (q.source = src ∧ q.sink = snk)) =
      [{ source := src, sink := snk
         path := ["Line " ++ toString (i + 1), "Line " ++ toString (j + 1)]
         severity := getSinkSeverity snk }] ∧
    getSinkSeverity snk =
      (if snk = ".delegatecall(" ∨ snk = "selfdestruct(" then Severity.Critical
       else if snk = ".call(" then Severity.High
       else Severity.Medium) := by
  constructor
  · have hsrc' : src ∈ taintSources := by
      fin_cases hsrc <;> decide
    have hp : taintPair lines src snk =
        some { source := src, sink := snk
               path := ["Line " ++ toString (i + 1), "Line " ++ toString (j + 1)]
               severity := getSinkSeverity snk } := by
      unfold taintPair
      rw [hi, hj]
      dsimp only
      rw [if_pos hij]
    exact outer_filter_singleton lines src snk taintSources _ hsrc'
      (by decide) hsnk (by decide) hp
  · fin_cases hsnk <;> decide

/-- Witness for C4: `msg.value` on line 1 flowing to `.delegatecall(` on
line 2 yields exactly one Critical path. -/
theorem c4_taint_paths_witness :
    (performTaintAnalysis
        [("msg.value".toList), ("a.delegatecall(b)".toList)]).vulnerablePaths.filter
        (fun q => decide (q.source = "msg.value" ∧ q.sink = ".delegatecall(")) =
      [{ source := "msg.value", sink := ".delegatecall("
         path := ["Line " ++ toString (0 + 1), "Line " ++ toString (1 + 1)]
         severity := getSinkSeverity (".delegatecall(") }] ∧
    getSinkSeverity (".delegatecall(") =
      (if (".delegatecall(" : String) = ".delegatecall(" ∨
          (".delegatecall(" : String) = "selfdestruct(" then Severity.Critical
       else if (".delegatecall(" : String) = ".call(" then Severity.High
       else Severity.Medium) :=
  c4_taint_paths ("msg.value") (".delegatecall(")
    [("msg.value".toList), ("a.delegatecall(b)".toList)] 0 1
    (by decide) (by decide) (by decide) (by decide) (by decide)

/-! ### C10 helper lemmas -/

theorem jsTrim_not_contains (l pat : Str)
    (h : listContains l pat = false) :
    listContains (jsTrim l) pat = false := by
  cases hc : listContains (jsTrim l) pat with
  | false => rfl
  | true => rw [listContains_jsTrim l pat hc] at h; cases h

theorem featureStep_access (st : FeatureSt) (l : Str)
    (h1 : listContains l ("require(".toList) = false)
    (h2 : listContains l ("assert(".toList) = false)
    (h3 : listContains l ("onlyOwner".toList) = false)
    (h4 : listContains l ("msg.sender".toList) = false) :
    (featureStep st l).accessControlChecks = st.accessControlChecks := by
  have t1 := jsTrim_not_contains l _ h1
  have t2 := jsTrim_not_contains l _ h2
  have t3 := jsTrim_not_contains l _ h3
  have t4 := jsTrim_not_contains l _ h4
  simp [featureStep]
  exact ⟨⟨⟨by simpa using t1, by simpa using t2⟩, by simpa using t3⟩,
    by simpa using t4⟩

theorem foldl_access_const (lines : List Str)
    (h : ∀ l ∈ lines,
      listContains l ("require(".toList) = false ∧
      listContains l ("assert(".toList) = false ∧
      listContains l ("onlyOwner".toList) = false ∧
      listContains l ("msg.sender".toList) = false) :
    ∀ st : FeatureSt,
      (lines.foldl featureStep st).accessControlChecks =
        st.accessControlChecks := by
  induction lines with
  | nil => intro st; rfl
  | cons l rest ih =>
    intro st
    have hl := h l (List.mem_cons_self l rest)
    have hrest := fun l' hl' => h l' (List.mem_cons_of_mem l hl')
    rw [List.foldl_cons, ih hrest,
      featureStep_access st l hl.1 hl.2.1 hl.2.2.1 hl.2.2.2]

theorem features_access_zero (lines : List Str)
    (h : ∀ l ∈ lines,
      listContains l ("require(".toList) = false ∧
      listContains l ("assert(".toList) = false ∧
      listContains l ("onlyOwner".toList) = false ∧
      listContains l ("msg.sender".toList) = false) :
    (extractCodeFeatures lines).accessControlChecks = 0 := by
  unfold extractCodeFeatures
  exact foldl_access_const lines h initFeatureSt

theorem accessRatio_breached (F : CodeFeatures) (sens : Sensitivity)
    (h : F.accessControlChecks = 0) :
    (F.accessControlChecks : ℚ) / max 1 (F.functionComplexity : ℚ) <
      (getAnomalyThresholds sens).accessControlRatio := by
  rw [h]
  simp only [Nat.cast_zero, zero_div]
  cases sens <;> norm_num [getAnomalyThresholds]

theorem mem_detectCodeAnomalies_access (lines : List Str) (F : CodeFeatures)
    (sens : Sensitivity)
    (hcond : (F.accessControlChecks : ℚ) / max 1 (F.functionComplexity : ℚ) <
      (getAnomalyThresholds sens).accessControlRatio) :
    accessControlAnomaly F ∈ detectCodeAnomalies lines F sens := by
  unfold detectCodeAnomalies
  apply List.mem_append_left
  apply List.mem_append_left
  apply List.mem_append_left
  apply List.mem_append_right
  rw [if_pos hcond]
  exact List.mem_singleton_self _

theorem generateRiskAssessment_of_critical (score : ℚ)
    (anomalies : List AnomalyRecord)
    (h : ∃ a ∈ anomalies, a.severity = Severity.Critical) :
    generateRiskAssessment score anomalies =
      "CRITICAL: Multiple high-risk anomalies detected. Immediate security review required." := by
  unfold generateRiskAssessment
  have hpos :
      0 < anomalies.countP (fun a => decide (a.severity = Severity.Critical)) := by
    rw [List.countP_pos_iff]
    rcases h with ⟨a, ha, hsev⟩
    exact ⟨a, ha, by simp [hsev]⟩
  rw [if_pos (Or.inr hpos)]

/-- C10: whenever no line of the input contains `require(`, `assert(`,
`onlyOwner` or `msg.sender`, the anomaly detector always emits the
Critical "Insufficient Access Control" anomaly with confidence 0.9, and
the risk assessment is the CRITICAL string — for any sensitivity level,
including empty or trivial non-contract input. -/
theorem c10_access_anomaly (code : Str) (sens : Sensitivity)
    (h : ∀ l ∈ splitOnNewline code,
      listContains l ("require(".toList) = false ∧
      listContains l ("assert(".toList) = false ∧
      listContains l ("onlyOwner".toList) = false ∧
      listContains l ("msg.sender".toList) = false) :
    accessControlAnomaly (extractCodeFeatures (splitOnNewline code)) ∈
        (detectAnomalies code sens).anomalies ∧
    (accessControlAnomaly (extractCodeFeatures (splitOnNewline code))).type =
      "Insufficient Access Control" ∧
    (accessControlAnomaly (extractCodeFeatures (splitOnNewline code))).severity =
      Severity.Critical ∧
    (accessControlAnomaly (extractCodeFeatures (splitOnNewline code))).confidence =
      9 / 10 ∧
    (detectAnomalies code sens).riskAssessment =
      "CRITICAL: Multiple high-risk anomalies detected. Immediate security review required." := by
  have hzero := features_access_zero (splitOnNewline code) h
  have hcond := accessRatio_breached _ sens hzero
  have hmem := mem_detectCodeAnomalies_access (splitOnNewline code)
    (extractCodeFeatures (splitOnNewline code)) sens hcond
  refine ⟨hmem, rfl, rfl, rfl, ?_⟩
  show generateRiskAssessment _ _ = _
  exact generateRiskAssessment_of_critical _ _
    ⟨accessControlAnomaly (extractCodeFeatures (splitOnNewline code)), hmem, rfl⟩

/-- Witness for C10 at the empty input and medium sensitivity. -/
theorem c10_access_anomaly_witness :
    accessControlAnomaly (extractCodeFeatures (splitOnNewline [])) ∈
        (detectAnomalies [] Sensitivity.medium).anomalies ∧
    (accessControlAnomaly (extractCodeFeatures (splitOnNewline []))).type =
      "Insufficient Access Control" ∧
    (accessControlAnomaly (extractCodeFeatures (splitOnNewline []))).severity =
      Severity.Critical ∧
    (accessControlAnomaly (extractCodeFeatures (splitOnNewline []))).confidence =
      9 / 10 ∧
    (detectAnomalies [] Sensitivity.medium).riskAssessment =
      "CRITICAL: Multiple high-risk anomalies detected. Immediate security review required." :=
  c10_access_anomaly [] Sensitivity.medium (by decide)

/-! ### C5 helper lemmas -/

theorem any_if_singleton (C : Prop) [Decidable C] (s : String)
    (f : String → Bool) :
    (if C then [s] else []).any f = (decide C && f s) := by
  split <;> simp [*]

theorem mc_any_overflow (code : Str) :
    (mcSafetyViolations code).any (fun v => strIncludes v "overflow") =
      ((listContains code ("+".toList) || listContains code ("*".toList)) &&
        !(listContains code ("SafeMath".toList) ||
          listContains code ("pragma solidity ^0.8".toList))) := by
  have f1 : strIncludes "Potential integer overflow in arithmetic operations"
      "overflow" = true := by decide
  have f2 : strIncludes "Potential reentrancy vulnerability detected"
      "overflow" = false := by decide
  have f3 : strIncludes "Privileged functions without proper access control"
      "overflow" = false := by decide
  unfold mcSafetyViolations
  split <;> split <;> split <;> simp_all

theorem symOverflowAux_ne_nil (p08 : Bool) (lines : List Str) (i : Nat)
    (l : Str) (hl : l ∈ lines)
    (hcond : ((listContains (jsTrim l) ("+".toList) ||
        listContains (jsTrim l) ("*".toList)) &&
      !(listContains (jsTrim l) ("SafeMath".toList) || p08)) = true) :
    symOverflowAux p08 lines i ≠ [] := by
  induction lines generalizing i with
  | nil => simp at hl
  | cons x rest ih =>
    rcases List.mem_cons.mp hl with he | hmem
    · subst he
      simp only [symOverflowAux, hcond, if_true]
      simp
    · cases hx : ((listContains (jsTrim x) ("+".toList) ||
          listContains (jsTrim x) ("*".toList)) &&
        !(listContains (jsTrim x) ("SafeMath".toList) || p08)) with
      | true =>
        simp only [symOverflowAux, hx, if_true]
        simp
      | false =>
        simp only [symOverflowAux, hx]
        simp only [Bool.false_eq_true, if_false]
        exact ih (i + 1) hmem

theorem symOverflow_nonempty (code : Str)
    (hflag : ((listContains code ("+".toList) ||
        listContains code ("*".toList)) &&
      !(listContains code ("SafeMath".toList) ||
        listContains code ("pragma solidity ^0.8".toList))) = true) :
    symOverflowChecks code ≠ [] := by
  rw [Bool.and_eq_true] at hflag
  obtain ⟨hplus, hnots⟩ := hflag
  rw [Bool.not_eq_true', Bool.or_eq_false_iff] at hnots
  obtain ⟨hsafe, hprag⟩ := hnots
  -- pick a line carrying the arithmetic character
  have hchar : ∃ c, (c = '+' ∨ c = '*') ∧ c ∈ code := by
    rw [Bool.or_eq_true] at hplus
    rcases hplus with hp | hp
    · exact ⟨'+', Or.inl rfl, (listContains_singleton code '+').mp (by simpa using hp)⟩
    · exact ⟨'*', Or.inr rfl, (listContains_singleton code '*').mp (by simpa using hp)⟩
  obtain ⟨c, hc, hmem⟩ := hchar
  have hcn : c ≠ '\n' := by rcases hc with rfl | rfl <;> decide
  obtain ⟨l, hl, hcl⟩ := mem_line_of_mem_code code c hcn hmem
  have hcs : isJsSpace c = false := by rcases hc with rfl | rfl <;> decide
  have hct : c ∈ jsTrim l := mem_jsTrim_of_not_space l c hcs hcl
  -- no line contains SafeMath, and no line is a ^0.8 pragma line
  have hsafeline : listContains (jsTrim l) ("SafeMath".toList) = false := by
    cases hx : listContains (jsTrim l) ("SafeMath".toList) with
    | false => rfl
    | true =>
      have := listContains_of_line code l _ hl (listContains_jsTrim l _ hx)
      rw [this] at hsafe; cases hsafe
  have hp08 : hasPragma08Line (splitOnNewline code) = false := by
    cases hx : hasPragma08Line (splitOnNewline code) with
    | false => rfl
    | true =>
      unfold hasPragma08Line at hx
      rw [List.any_eq_true] at hx
      obtain ⟨l', hl', hc'⟩ := hx
      have := listContains_of_line code l' _ hl' hc'
      rw [this] at hprag; cases hprag
  unfold symOverflowChecks
  rw [hp08]
  apply symOverflowAux_ne_nil false (splitOnNewline code) 0 l hl
  have hplusl : (listContains (jsTrim l) ("+".toList) ||
      listContains (jsTrim l) ("*".toList)) = true := by
    rcases hc with rfl | rfl
    · have : listContains (jsTrim l) ['+'] = true :=
        (listContains_singleton _ '+').mpr hct
      simp [this]
    · have : listContains (jsTrim l) ['*'] = true :=
        (listContains_singleton _ '*').mpr hct
      simp [this]
  rw [hplusl, hsafeline]
  rfl

theorem mcUpdateProp_id (code : Str) (p : FormalProperty) :
    (mcUpdateProp code p).id = p.id := by
  unfold mcUpdateProp
  repeat' split
  all_goals rfl

theorem seUpdateProp_id (code : Str) (p : FormalProperty) :
    (seUpdateProp code p).id = p.id := by
  unfold seUpdateProp
  dsimp only
  repeat' split
  all_goals rfl

theorem aiUpdateProp_id (code : Str) (p : FormalProperty) :
    (aiUpdateProp code p).id = p.id := by
  unfold aiUpdateProp
  dsimp only
  repeat' split
  all_goals rfl

theorem propertiesAfterAll_cons (code : Str) (custom : List String) :
    propertiesAfterAll code custom =
      aiUpdateProp code (seUpdateProp code (mcUpdateProp code safety001)) ::
        (((safety002 :: safety003 ::
            (condProps code ++ customPropsAux 0 custom)).map
          (mcUpdateProp code)).map (seUpdateProp code)).map
          (aiUpdateProp code) := rfl


/-- C5: with method `"all"`, the final `SAFETY_001` ("No Integer
Overflow") record carries exactly the symbolic-execution verdict —
verified iff that pass found no unchecked arithmetic, confidence 0.9/0.1
accordingly, counterexample the first unchecked-arithmetic line when one
exists — overwriting whatever verdict the earlier model-checking pass
assigned to the same property. -/
theorem c5_last_write_wins (code : Str) (custom : List String) :
    (propertiesAfterAll code custom).find? (fun p => p.id == "SAFETY_001") =
      some { id := "SAFETY_001", name := "No Integer Overflow"
             type := PropertyType.safety
             specification := "∀ operations: result ≤ MAX_UINT256"
             verified := (symOverflowChecks code).isEmpty
             counterexample := (symOverflowChecks code).head?
             confidence :=
              if (symOverflowChecks code).isEmpty then 9 / 10 else 1 / 10 } := by
  rw [propertiesAfterAll_cons]
  rw [List.find?_cons_of_pos _ (by
    simp [aiUpdateProp_id, seUpdateProp_id, mcUpdateProp_id, safety001])]
  congr 1
  have ht : safety001.type = PropertyType.safety := rfl
  have hIO : strIncludes "No Integer Overflow" "Integer Overflow" = true := by
    decide
  have hAC : strIncludes "No Integer Overflow" "Access Control" = false := by
    decide
  cases hF : (mcSafetyViolations code).any
      (fun v => strIncludes v "overflow") with
  | true =>
    have hne : symOverflowChecks code ≠ [] := symOverflow_nonempty code (by
      rw [← mc_any_overflow]; exact hF)
    have hEmp : (symOverflowChecks code).isEmpty = false :=
      List.isEmpty_eq_false.mpr hne
    have hcnd : (strIncludes safety001.name "Overflow" &&
        (mcSafetyViolations code).any (fun v => strIncludes v "overflow")) =
          true := by
      rw [hF]; decide
    have hmc : mcUpdateProp code safety001 =
        { safety001 with
            verified := false,
            counterexample :=
              some "Arithmetic operation without overflow protection" } := by
      unfold mcUpdateProp
      rw [if_pos ht, if_pos hcnd]
    rw [hmc]
    simp [seUpdateProp, aiUpdateProp, hIO, hAC, hEmp, safety001]
  | false =>
    have hcnd : (strIncludes safety001.name "Overflow" &&
        (mcSafetyViolations code).any (fun v => strIncludes v "overflow")) =
          false := by
      rw [hF]; decide
    have hcnd2 : (strIncludes safety001.name "Reentrancy" &&
        (mcSafetyViolations code).any (fun v => strIncludes v "reentrancy")) =
          false := by
      have hr : strIncludes safety001.name "Reentrancy" = false := by decide
      rw [hr]; rfl
    have hmc : mcUpdateProp code safety001 =
        { safety001 with verified := true, confidence := 17 / 20 } := by
      unfold mcUpdateProp
      rw [if_pos ht, if_neg (by simp [hcnd]), if_neg (by simp [hcnd2])]
    rw [hmc]
    cases hEmp : (symOverflowChecks code).isEmpty with
    | true =>
      have hnil : symOverflowChecks code = [] := List.isEmpty_iff.mp hEmp
      simp [seUpdateProp, aiUpdateProp, hIO, hAC, hEmp, hnil, safety001]
    | false =>
      simp [seUpdateProp, aiUpdateProp, hIO, hAC, hEmp, safety001]

/-! ### C3 helper lemmas -/

theorem lineScanStep_tx (x : Str) (st : ScanSt) (hst : st.txI = 0) :
    (lineScanStep x st).2.txI = 0 ∨
      (lineScanStep x st).1 = some txOriginIssue := by
  unfold lineScanStep
  cases h1 : jsTestG callAt x st.callI with
  | some e => left; simp [hst]
  | none =>
    cases h2 : jsTestG txOriginAt x st.txI with
    | some e => right; simp
    | none =>
      cases h3 : jsTestG selfdestructAt x st.sdI with
      | some e => left; simp
      | none =>
        cases h4 : jsTestG timestampNowAt x st.tsI with
        | some e => left; simp
        | none =>
          cases h5 : jsTestG outdatedPragmaAt x st.pgI with
          | some e => left; simp
          | none => left; simp

theorem scanChecks_txorigin (ls : List Str) (l : Str)
    (htx : listContains l ("tx.origin".toList) = true)
    (hcall : jsTest callAt l = false) :
    ∀ (i : Nat) (st : ScanSt), st.txI = 0 → l ∈ ls →
    ∃ issue ∈ scanChecks ls i st,
      issue.type = "tx.origin usage" ∧ issue.severity = Severity.Critical := by
  induction ls with
  | nil => intro i st _ hl; simp at hl
  | cons x rest ih =>
    intro i st hst hl
    rcases List.mem_cons.mp hl with he | hmem
    · subst he
      have hcg : jsTestG callAt l st.callI = none := jsTestG_eq_none _ _ _ hcall
      have htest : jsTest txOriginAt l = true := by
        show jsTest (litAt ("tx.origin".toList)) l = true
        rw [jsTest_litAt_eq_listContains]
        exact htx
      have hsome := jsTestG_zero_isSome txOriginAt l htest
      obtain ⟨e, he⟩ : ∃ e, jsTestG txOriginAt l 0 = some e := by
        cases hv : jsTestG txOriginAt l 0 with
        | none => rw [hv] at hsome; cases hsome
        | some e => exact ⟨e, rfl⟩
      have hstep : lineScanStep l st =
          (some txOriginIssue, { st with callI := 0, txI := e }) := by
        unfold lineScanStep
        rw [hcg, hst, he]
      refine ⟨txOriginIssue (i + 1), ?_, rfl, rfl⟩
      simp only [scanChecks, hstep]
      exact List.mem_cons_self _ _
    · cases hps : lineScanStep x st with
      | mk o st' =>
        have hdisj := lineScanStep_tx x st hst
        rw [hps] at hdisj
        cases o with
        | none =>
          simp only [scanChecks, hps]
          rcases hdisj with hmemtx | habs
          · exact ih (i + 1) st' hmemtx hmem
          · simp at habs
        | some mk =>
          simp only [scanChecks, hps]
          rcases hdisj with hst' | hiss
          · obtain ⟨issue, hin, hty, hsev⟩ := ih (i + 1) st' hst' hmem
            exact ⟨issue, List.mem_cons_of_mem _ hin, hty, hsev⟩
          · simp only [Option.some.injEq] at hiss
            subst hiss
            exact ⟨txOriginIssue (i + 1), List.mem_cons_self _ _, rfl, rfl⟩

/-- C3 (amended): for every accepted input, if some line among the first
100 lines of the sanitised text contains `tx.origin` and does not contain
a low-level-call pattern (`.call` + optional whitespace + `(`, which the
first-matching-rule-wins break would report instead), then the analyzer's
discovered issue list (before the 20-issue truncation) contains an issue
of type "tx.origin usage" with severity Critical. -/
theorem c3_txorigin_amended (code : Str) (name : Option String)
    (r : AnalysisResult) (hok : analyzeContract code name = Except.ok r)
    (l : Str) (hl : l ∈ (splitOnNewline (jsTrim code)).take 100)
    (htx : listContains l ("tx.origin".toList) = true)
    (hcall : jsTest callAt l = false) :
    ∃ issue ∈ discoveredIssues (jsTrim code),
      issue.type = "tx.origin usage" ∧ issue.severity = Severity.Critical := by
  obtain ⟨issue, hin, hty, hsev⟩ :=
    scanChecks_txorigin ((splitOnNewline (jsTrim code)).take 100) l htx hcall
      0 ⟨0, 0, 0, 0, 0⟩ rfl hl
  exact ⟨issue, List.mem_append_right _ hin, hty, hsev⟩

/-- An accepted 101-line contract whose only `tx.origin` lies on line 101,
beyond the scanner's 100-line limit (the C3 counterexample input). -/
def c3Code : Str :=
  joinNewline (("contract C \x7b".toList) ::
    (List.replicate 99 ([] : Str) ++ [("tx.origin".toList)]))

/-- C3 counterexample: `c3Code` contains `tx.origin`, the analysis
succeeds, yet neither the returned issues nor even the untruncated
discovered list contains any "tx.origin usage" issue. -/
theorem c3_counterexample :
    listContains c3Code ("tx.origin".toList) = true ∧
    (analyzeContract c3Code none).isOk = true ∧
    ((analyzeContract c3Code none).toOption.map
      (fun r => r.issues.countP
        (fun i => decide (i.type = "tx.origin usage")))) = some 0 ∧
    (discoveredIssues (jsTrim c3Code)).countP
      (fun i => decide (i.type = "tx.origin usage")) = 0 := by
  refine ⟨by decide, by decide, by decide, by decide⟩

/-- Two-line contract with `tx.origin` on line 2 (C3 witness input). -/
def c3wCode : Str :=
  joinNewline [("contract C \x7b".toList), ("tx.origin".toList)]

/-- Concrete run of the analyzer on `c3wCode`. -/
def c3wRes : AnalysisResult :=
  ((analyzeContract c3wCode none).toOption).getD ⟨"", 0, 0, [], [], ""⟩

/-- Witness for the amended C3 at `c3wCode`. -/
theorem c3_txorigin_amended_witness :
    ∃ issue ∈ discoveredIssues (jsTrim c3wCode),
      issue.type = "tx.origin usage" ∧ issue.severity = Severity.Critical :=
  c3_txorigin_amended c3wCode none c3wRes (by rfl) ("tx.origin".toList)
    (by decide) (by decide) (by decide)

/-- Witness for C8 at the empty findings set plus one Critical finding. -/
theorem c8_monotonicity_witness :
    scoreFromCounts (findingsOfSeverities [Severity.Critical]).critical
        (findingsOfSeverities [Severity.Critical]).high
        (findingsOfSeverities [Severity.Critical]).medium
        (findingsOfSeverities [Severity.Critical]).low ≤
      scoreFromCounts (findingsOfSeverities []).critical
        (findingsOfSeverities []).high (findingsOfSeverities []).medium
        (findingsOfSeverities []).low ∧
    riskRank (reportRiskLevel (findingsOfSeverities [])) ≤
      riskRank (reportRiskLevel (findingsOfSeverities [Severity.Critical])) :=
  c8_monotonicity [] [Severity.Critical] (List.Perm.refl _)
